import Mathlib

/-!
Helm chart inflation generator: a shallow embedding of
`plugin/builtin/helmchartinflationgenerator/HelmChartInflationGenerator.go`.

Go methods on `*HelmChartInflationGeneratorPlugin` become functions that take the
receiver and the state of the outside world and return the updated receiver and
world together with the Go return values.  A Go `error` is an `Option String`
holding the message (`none` is `nil`).  Everything the plugin reaches through the
standard library, the plugin helpers, the YAML library and the helm binary is a
field of `Env`; every call through `Env` that touches the world is recorded in a
trace of `Event`s.  A Go `string` or `[]byte` is a `String`, and offsets into it count
characters; the texts that the plugin searches for (`---`, `v`, `.` and the digits) are
ASCII, for which characters and bytes coincide.
-/

namespace HelmChartInflationGenerator

/-! ## Data model -/

/-- A YAML value as held by a Go `interface{}` inside `map[string]interface{}`. -/
inductive Value where
  | null : Value
  | bool (b : Bool) : Value
  | num (n : Int) : Value
  | str (s : String) : Value
  | seq (items : List Value) : Value
  | map (entries : List (String × Value)) : Value

/-- A Go `map[string]interface{}`: read through `List.lookup`, so the order of the
entries carries no meaning. -/
abbrev Values := List (String × Value)

/-- The receiver: the fields of `types.HelmGlobals` and `types.HelmChart` that the
plugin reads or writes, and `tmpDir`.  The helpers `h` are the `Env` argument. -/
structure HelmChartInflationGeneratorPlugin where
  ChartHome : String
  ConfigHome : String
  Name : String
  Version : String
  Repo : String
  ReleaseName : String
  Namespace : String
  ValuesFile : String
  ValuesInline : Values
  ValuesMerge : String
  IncludeCRDs : Bool
  tmpDir : String

/-- One call that leaves the process. -/
inductive Event where
  | tempDir : Event
  | load (path : String) : Event
  | writeFile (path : String) (content : String) : Event
  | removeAll (path : String) : Event
  | stat (path : String) : Event
  | exec (command : String) (args : List String) (env : List String) : Event

/-- The world outside the plugin together with the calls made so far. -/
structure Sys (W : Type) where
  world : W
  trace : List Event

/-- The collaborators of the plugin over a world `W`, with resource maps of type `R`.

* `helmCommand` is `h.GeneralConfig().HelmConfig.Command`, `root` is `h.Loader().Root()`;
* `isAbs`, `join` are `filepath.IsAbs`, `filepath.Join`;
* `tempDir` is `ioutil.TempDir("", "kustomize-helm-")`;
* `load` is `h.Loader().Load`, `writeFile` is `ioutil.WriteFile(path, b, 0644)`,
  `removeAll` is `os.RemoveAll`, `stat` is `os.Stat` followed by `IsDir`
  (`none` when `os.Stat` fails);
* `environ` is `os.Environ()`, `run` is `exec.Command(command, args...)` run with
  the given environment: it yields stdout, stderr and whether `cmd.Run` failed;
* `marshal`, `unmarshal` are `yaml.Marshal`, `yaml.Unmarshal` into a fresh map;
* `newResMap` is `h.ResmapFactory().NewResMapFromBytes`, which yields a resource map
  or an error. -/
structure Env (W : Type) (R : Type) where
  helmCommand : String
  root : String
  isAbs : String → Bool
  join : List String → String
  tempDir : W → Except String String × W
  load : W → String → Except String String
  writeFile : W → String → String → Option String × W
  removeAll : W → String → W
  stat : W → String → Option Bool
  environ : List String
  run : W → String → List String → List String → (String × String × Bool) × W
  marshal : Values → Except String String
  unmarshal : String → Except String Values
  newResMap : String → Except String R

def valuesMergeOptionMerge : String := "merge"

def valuesMergeOptionOverride : String := "override"

def valuesMergeOptionReplace : String := "replace"

def legalMergeOptions : List String :=
  [valuesMergeOptionMerge, valuesMergeOptionOverride, valuesMergeOptionReplace]

/-- The message of `errors.Wrap(err, msg)`. -/
def errorsWrap (err : String) (msg : String) : String :=
  msg ++ ": " ++ err

/-- The `%v` rendering of a `[]string`. -/
def fmtStrings (xs : List String) : String :=
  "[" ++ " ".intercalate xs ++ "]"

/-! ## Argument validation -/

section Operations

variable {W R : Type}

def establishTmpDir (env : Env W R) (p : HelmChartInflationGeneratorPlugin) (s : Sys W) :
    Option String × HelmChartInflationGeneratorPlugin × Sys W :=
  if p.tmpDir ≠ "" then
    (none, p, s)
  else
    match env.tempDir s.world with
    | (Except.ok d, w) => (none, { p with tmpDir := d }, ⟨w, s.trace ++ [Event.tempDir]⟩)
    | (Except.error e, w) => (some e, { p with tmpDir := "" }, ⟨w, s.trace ++ [Event.tempDir]⟩)

def errIfIllegalValuesMerge (p : HelmChartInflationGeneratorPlugin) :
    Option String × HelmChartInflationGeneratorPlugin :=
  if p.ValuesMerge = "" then
    (none, { p with ValuesMerge := valuesMergeOptionOverride })
  else if legalMergeOptions.any (fun opt => p.ValuesMerge == opt) then
    (none, p)
  else
    (some ("valuesMerge must be one of " ++ fmtStrings legalMergeOptions), p)

def validateArgs (env : Env W R) (p : HelmChartInflationGeneratorPlugin) (s : Sys W) :
    Option String × HelmChartInflationGeneratorPlugin × Sys W :=
  if p.Name = "" then
    (some "chart name cannot be empty", p, s)
  else
    let p1 := if p.ChartHome = "" then { p with ChartHome := "charts" } else p
    let p2 := if p1.ValuesFile = "" then
      { p1 with ValuesFile := env.join [p1.ChartHome, p1.Name, "values.yaml"] } else p1
    match errIfIllegalValuesMerge p2 with
    | (some e, p3) => (some e, p3, s)
    | (none, p3) =>
      if p3.ConfigHome = "" then
        match establishTmpDir env p3 s with
        | (some e, p4, s4) =>
          (some (errorsWrap e "unable to create tmp dir for HELM_CONFIG_HOME"), p4, s4)
        | (none, p4, s4) => (none, { p4 with ConfigHome := env.join [p4.tmpDir, "helm"] }, s4)
      else
        (none, p3, s)

/-! ## Paths and helm commands -/

def absChartHome (env : Env W R) (p : HelmChartInflationGeneratorPlugin) : String :=
  if env.isAbs p.ChartHome then p.ChartHome else env.join [env.root, p.ChartHome]

/-- The three variables that `runHelmCommand` adds to the inherited environment. -/
def helmEnv (p : HelmChartInflationGeneratorPlugin) : List String :=
  ["HELM_CONFIG_HOME=" ++ p.ConfigHome,
   "HELM_CACHE_HOME=" ++ p.ConfigHome ++ "/.cache",
   "HELM_DATA_HOME=" ++ p.ConfigHome ++ "/.data"]

def runHelmCommand (env : Env W R) (p : HelmChartInflationGeneratorPlugin) (s : Sys W)
    (args : List String) : (String × Option String) × Sys W :=
  match env.run s.world env.helmCommand args (env.environ ++ helmEnv p) with
  | ((stdout, stderr, failed), w) =>
    let s1 : Sys W :=
      ⟨w, s.trace ++ [Event.exec env.helmCommand args (env.environ ++ helmEnv p)]⟩
    if failed then
      ((stdout, some (errorsWrap
        ("unable to run: '" ++ env.helmCommand ++ " " ++ " ".intercalate args ++
          "' with env=" ++ fmtStrings (helmEnv p) ++
          " (is '" ++ env.helmCommand ++ "' installed?)")
        stderr)), s1)
    else
      ((stdout, none), s1)

def templateCommand (env : Env W R) (p : HelmChartInflationGeneratorPlugin) : List String :=
  let args := ["template"]
  let args := if p.ReleaseName ≠ "" then args ++ [p.ReleaseName] else args
  let args := if p.Namespace ≠ "" then args ++ ["--namespace", p.Namespace] else args
  let args := args ++ [env.join [absChartHome env p, p.Name]]
  let args := if p.ValuesFile ≠ "" then args ++ ["--values", p.ValuesFile] else args
  let args := if p.ReleaseName = "" then args ++ ["--generate-name"] else args
  let args := if p.IncludeCRDs then args ++ ["--include-crds"] else args
  args

def pullCommand (env : Env W R) (p : HelmChartInflationGeneratorPlugin) : List String :=
  let args := ["pull", "--untar", "--untardir", absChartHome env p, "--repo", p.Repo, p.Name]
  if p.Version ≠ "" then args ++ ["--version", p.Version] else args

def chartExistsLocally (env : Env W R) (p : HelmChartInflationGeneratorPlugin) (s : Sys W) :
    (String × Bool) × Sys W :=
  let path := env.join [absChartHome env p, p.Name]
  let s1 : Sys W := ⟨s.world, s.trace ++ [Event.stat path]⟩
  match env.stat s.world path with
  | none => (("", false), s1)
  | some isDir => ((path, isDir), s1)

/-! ## Values handling -/

/-- Modelled from the spec: `mergo.Merge(&dst, src)` and
`mergo.Merge(&dst, src, mergo.WithOverride)` of the library
`github.com/imdario/mergo`, which `replaceValuesInline` calls and whose source is
not among the sources of the plugin.  The spec says of the two policies:
"`override` lets inline values win on conflicting keys; `merge` keeps existing keys
and adds only new ones".  The merge is key by key on the top-level mapping and
reports no error. -/
def mergoMerge (dst src : Values) (withOverride : Bool) : Values × Option String :=
  if withOverride then
    (src ++ dst.filter (fun kv => (src.lookup kv.1).isNone), none)
  else
    (dst ++ src.filter (fun kv => (dst.lookup kv.1).isNone), none)

def replaceValuesInline (env : Env W R) (p : HelmChartInflationGeneratorPlugin) (s : Sys W) :
    Option String × HelmChartInflationGeneratorPlugin × Sys W :=
  let s1 : Sys W := ⟨s.world, s.trace ++ [Event.load p.ValuesFile]⟩
  match env.load s.world p.ValuesFile with
  | Except.error e => (some e, p, s1)
  | Except.ok pValues =>
    match env.unmarshal pValues with
    | Except.error e => (some e, p, s1)
    | Except.ok chValues =>
      let merged : Values × Option String :=
        if p.ValuesMerge = valuesMergeOptionOverride then
          mergoMerge chValues p.ValuesInline true
        else if p.ValuesMerge = valuesMergeOptionMerge then
          mergoMerge chValues p.ValuesInline false
        else
          (chValues, none)
      (merged.2, { p with ValuesInline := merged.1 }, s1)

def writeValuesBytes (env : Env W R) (p : HelmChartInflationGeneratorPlugin) (s : Sys W)
    (b : String) : (String × Option String) × HelmChartInflationGeneratorPlugin × Sys W :=
  match establishTmpDir env p s with
  | (some _, p1, s1) => (("", some "cannot create tmp dir to write helm values"), p1, s1)
  | (none, p1, s1) =>
    let path := env.join [p1.tmpDir, p1.Name ++ "-kustomize-values.yaml"]
    match env.writeFile s1.world path b with
    | (err, w) => ((path, err), p1, ⟨w, s1.trace ++ [Event.writeFile path b]⟩)

def createNewMergedValuesFile (env : Env W R) (p : HelmChartInflationGeneratorPlugin)
    (s : Sys W) : (String × Option String) × HelmChartInflationGeneratorPlugin × Sys W :=
  let merged : Option String × HelmChartInflationGeneratorPlugin × Sys W :=
    if p.ValuesMerge = valuesMergeOptionMerge ∨ p.ValuesMerge = valuesMergeOptionOverride then
      replaceValuesInline env p s
    else
      (none, p, s)
  match merged with
  | (some e, p1, s1) => (("", some e), p1, s1)
  | (none, p1, s1) =>
    match env.marshal p1.ValuesInline with
    | Except.error e => (("", some e), p1, s1)
    | Except.ok b => writeValuesBytes env p1 s1 b

def copyValuesFile (env : Env W R) (p : HelmChartInflationGeneratorPlugin) (s : Sys W) :
    (String × Option String) × HelmChartInflationGeneratorPlugin × Sys W :=
  let s1 : Sys W := ⟨s.world, s.trace ++ [Event.load p.ValuesFile]⟩
  match env.load s.world p.ValuesFile with
  | Except.error e => (("", some e), p, s1)
  | Except.ok b => writeValuesBytes env p s1 b

def cleanup (env : Env W R) (p : HelmChartInflationGeneratorPlugin) (s : Sys W) : Sys W :=
  if p.tmpDir ≠ "" then
    ⟨env.removeAll s.world p.tmpDir, s.trace ++ [Event.removeAll p.tmpDir]⟩
  else
    s

end Operations

/-! ## The helm version check -/

/-- The class `\d` of Go regular expressions: the ten ASCII digits. -/
def digitRE : RegularExpression Char :=
  RegularExpression.char '0' + RegularExpression.char '1' + RegularExpression.char '2' +
  RegularExpression.char '3' + RegularExpression.char '4' + RegularExpression.char '5' +
  RegularExpression.char '6' + RegularExpression.char '7' + RegularExpression.char '8' +
  RegularExpression.char '9'

/-- The pattern `\d+`. -/
def digitsRE : RegularExpression Char :=
  digitRE * RegularExpression.star digitRE

/-- The pattern `\.\d+`. -/
def groupRE : RegularExpression Char :=
  RegularExpression.char '.' * digitsRE

/-- The pattern `v?\d+(\.\d+)+` that `checkHelmVersion` compiles. -/
def versionRE : RegularExpression Char :=
  (RegularExpression.char 'v' + 1) * digitsRE * (groupRE * RegularExpression.star groupRE)

/-- The match of `versionRE` that starts at the head of `s`, if there is one.  Every
quantifier of the pattern is greedy and no two alternatives overlap, so the match
that the leftmost-first rule of `regexp` prefers is the longest one. -/
def matchAt (s : List Char) : Option (List Char) :=
  s.inits.reverse.find? (fun m => versionRE.rmatch m)

/-- The leftmost match of `versionRE` in `s`. -/
def findMatch : List Char → Option (List Char)
  | [] => none
  | c :: t =>
    match matchAt (c :: t) with
    | some m => some m
    | none => findMatch t

/-- The result of `r.FindString(s)` for the compiled pattern: the text of the
leftmost match, or the empty string when there is none. -/
def FindString (s : String) : String :=
  match findMatch s.data with
  | some m => String.mk m
  | none => ""

/-- The pieces of `s` between the occurrences of the character `sep`. -/
def splitChar (sep : Char) : List Char → List (List Char)
  | [] => [[]]
  | c :: t =>
    if c = sep then
      [] :: splitChar sep t
    else
      match splitChar sep t with
      | [] => [[c]]
      | h :: r => (c :: h) :: r

/-- The first element of `strings.Split(v, ".")`. -/
def majorOf (v : String) : String :=
  String.mk ((splitChar '.' v.data).headD [])

/-- The body of `checkHelmVersion` after the helm command has returned `stdout`. -/
def checkHelmVersion.onStdout (stdout : String) : Option String :=
  let v := FindString stdout
  if v = "" then
    some ("cannot find version string in " ++ stdout)
  else
    let v1 := if v.data.head? = some 'v' then String.mk v.data.tail else v
    let majorVersion := majorOf v1
    if majorVersion ≠ "3" then
      some ("this plugin requires helm V3 but got v" ++ v1)
    else
      none

section Generation

variable {W R : Type}

def checkHelmVersion (env : Env W R) (p : HelmChartInflationGeneratorPlugin) (s : Sys W) :
    Option String × Sys W :=
  match runHelmCommand env p s ["version", "-c", "--short"] with
  | ((_, some e), s1) => (some e, s1)
  | ((stdout, none), s1) => (checkHelmVersion.onStdout stdout, s1)

/-! ## Generate -/

/-- The offset of the first occurrence of `sub` in `s` at or after the `i` characters
already passed, or `-1`. -/
def indexFrom (sub : List Char) : List Char → Nat → Int
  | [], i => if sub = [] then (i : Int) else -1
  | c :: t, i => if sub.isPrefixOf (c :: t) then (i : Int) else indexFrom sub t (i + 1)

/-- The result of `strings.Index(s, substr)`. -/
def stringsIndex (s substr : String) : Int :=
  indexFrom substr.data s.data 0

/-- Lines 234 to 242 of `Generate`: pull the chart unless it is there already. -/
def Generate.resolveChart (env : Env W R) (p : HelmChartInflationGeneratorPlugin)
    (s : Sys W) : Option String × Sys W :=
  match chartExistsLocally env p s with
  | ((path, isThere), s1) =>
    if !isThere then
      if p.Repo = "" then
        (some ("no repo specified for pull, no chart found at '" ++ path ++ "'"), s1)
      else
        match runHelmCommand env p s1 (pullCommand env p) with
        | ((_, some e), s2) => (some e, s2)
        | ((_, none), s2) => (none, s2)
    else
      (none, s1)

/-- Lines 243 to 247 of `Generate`: the values file handed to `helm template`.  The
returned path is assigned to `ValuesFile` whether or not an error came with it. -/
def Generate.resolveValues (env : Env W R) (p : HelmChartInflationGeneratorPlugin)
    (s : Sys W) : Option String × HelmChartInflationGeneratorPlugin × Sys W :=
  let r := if p.ValuesInline.length > 0 then createNewMergedValuesFile env p s
    else copyValuesFile env p s
  (r.1.2, { r.2.1 with ValuesFile := r.1.1 }, r.2.2)

/-- Lines 257 to 267 of `Generate`: parse the output of `helm template`. -/
def Generate.parseOutput (env : Env W R) (stdout : String) : Except String R :=
  match env.newResMap stdout with
  | Except.ok rm => Except.ok rm
  | Except.error err =>
    let idx := stringsIndex stdout "---"
    if idx ≠ -1 then
      env.newResMap (String.mk (stdout.data.drop idx.toNat))
    else
      Except.error err

/-- The body of `Generate`, before the deferred `cleanup` runs. -/
def Generate.body (env : Env W R) (p : HelmChartInflationGeneratorPlugin) (s : Sys W) :
    Except String R × HelmChartInflationGeneratorPlugin × Sys W :=
  match checkHelmVersion env p s with
  | (some e, s1) => (Except.error e, p, s1)
  | (none, s1) =>
    match Generate.resolveChart env p s1 with
    | (some e, s2) => (Except.error e, p, s2)
    | (none, s2) =>
      match Generate.resolveValues env p s2 with
      | (some e, p3, s3) => (Except.error e, p3, s3)
      | (none, p3, s3) =>
        match runHelmCommand env p3 s3 (templateCommand env p3) with
        | ((_, some e), s4) => (Except.error e, p3, s4)
        | ((stdout, none), s4) => (Generate.parseOutput env stdout, p3, s4)

def Generate (env : Env W R) (p : HelmChartInflationGeneratorPlugin) (s : Sys W) :
    Except String R × HelmChartInflationGeneratorPlugin × Sys W :=
  match Generate.body env p s with
  | (r, p1, s1) => (r, p1, cleanup env p1 s1)

end Generation

/-! ## A concrete environment

A small file system, the Unix versions of the `filepath` functions, a line-based
stand-in for the YAML library and for the resource-map factory, and a helm binary
that answers `version`, `pull` and `template`.  The theorems below hold for every
`Env`; this one serves to run the plugin on concrete inputs. -/

/-- Directories, files with their contents, and the names that `ioutil.TempDir`
hands out next. -/
structure FS where
  dirs : List String
  files : List (String × String)
  fresh : List String

/-- The loop of `filepath.Clean` over the components of a path: `acc` holds the
components kept so far, last one first. -/
def cleanStack (rooted : Bool) : List (List Char) → List (List Char) → List (List Char)
  | acc, [] => acc.reverse
  | acc, c :: cs =>
    if c = [] ∨ c = ['.'] then
      cleanStack rooted acc cs
    else if c = ['.', '.'] then
      match acc with
      | top :: rest =>
        if top = ['.', '.'] then cleanStack rooted (c :: acc) cs else cleanStack rooted rest cs
      | [] => if rooted then cleanStack rooted [] cs else cleanStack rooted [c] cs
    else
      cleanStack rooted (c :: acc) cs

/-- The Unix `filepath.Clean`. -/
def filepathClean (path : String) : String :=
  if path = "" then
    "."
  else
    let rooted : Bool := path.data.head? = some '/'
    let body := String.mk (List.intercalate ['/'] (cleanStack rooted [] (splitChar '/' path.data)))
    if rooted then "/" ++ body else if body = "" then "." else body

/-- The Unix `filepath.Join`. -/
def filepathJoin (elem : List String) : String :=
  match elem.dropWhile (fun e => e = "") with
  | [] => ""
  | es => filepathClean ("/".intercalate es)

/-- The Unix `filepath.IsAbs`. -/
def filepathIsAbs (path : String) : Bool :=
  path.data.head? = some '/'

/-- The Unix `filepath.Dir`. -/
def filepathDir (path : String) : String :=
  filepathClean (String.mk (path.data.reverse.dropWhile (fun c => c ≠ '/')).reverse)

/-- Whether `path` is `dir` or lies below it. -/
def FS.under (dir path : String) : Bool :=
  path = dir || (dir ++ "/").data.isPrefixOf path.data

def FS.tempDir (fs : FS) : Except String String × FS :=
  match fs.fresh with
  | [] => (Except.error "mkdir /tmp/kustomize-helm-: no space left on device", fs)
  | d :: rest => (Except.ok d, { fs with dirs := d :: fs.dirs, fresh := rest })

def FS.load (root : String) (fs : FS) (path : String) : Except String String :=
  let full := if filepathIsAbs path then path else filepathJoin [root, path]
  match fs.files.lookup full with
  | some content => Except.ok content
  | none => Except.error ("open " ++ full ++ ": no such file or directory")

def FS.writeFile (fs : FS) (path content : String) : Option String × FS :=
  if fs.dirs.contains (filepathDir path) then
    (none, { fs with files := (path, content) :: fs.files.filter (fun f => f.1 ≠ path) })
  else
    (some ("open " ++ path ++ ": no such file or directory"), fs)

def FS.removeAll (fs : FS) (path : String) : FS :=
  { fs with
    dirs := fs.dirs.filter (fun d => !FS.under path d)
    files := fs.files.filter (fun f => !FS.under path f.1) }

def FS.stat (fs : FS) (path : String) : Option Bool :=
  if fs.dirs.contains path then some true
  else if (fs.files.lookup path).isSome then some false
  else none

/-- A helm binary of major version 3: `pull` unpacks the chart below the directory
given after `--untardir`, `template` prints one ConfigMap. -/
def demoHelm (fs : FS) (_command : String) (args _env : List String) :
    (String × String × Bool) × FS :=
  match args with
  | "version" :: _ => (("v3.5.0+g32c2223", "", false), fs)
  | "template" :: _ => (("---\napiVersion: v1\nkind: ConfigMap\n", "", false), fs)
  | "pull" :: _ :: _ :: home :: _ :: _ :: name :: _ =>
    (("", "", false), { fs with dirs := filepathJoin [home, name] :: fs.dirs })
  | _ => (("", "Error: unknown command", true), fs)

/-- The text before and after the first `:` of a line, if it has one. -/
def splitKey : List Char → Option (List Char × List Char)
  | [] => none
  | c :: t =>
    if c = ':' then
      some ([], t)
    else
      match splitKey t with
      | some (k, v) => some (c :: k, v)
      | none => none

/-- The value of a `key: value` line: what follows the `:`, without leading blanks. -/
def lineValue (v : List Char) : String :=
  String.mk (v.dropWhile (fun c => c = ' '))

/-- The lines of a flat mapping, read from the first line on. -/
def unmarshalLines : List (List Char) → Except String Values
  | [] => Except.ok []
  | line :: rest =>
    if line = [] then
      unmarshalLines rest
    else
      match splitKey line with
      | none => Except.error ("yaml: could not find expected ':' in " ++ String.mk line)
      | some (k, v) =>
        match unmarshalLines rest with
        | Except.error e => Except.error e
        | Except.ok m => Except.ok ((String.mk k, Value.str (lineValue v)) :: m)

/-- A flat mapping written one `key: value` per line. -/
def demoUnmarshal (b : String) : Except String Values :=
  unmarshalLines (splitChar '\n' b.data)

/-- The inverse of `demoUnmarshal` on mappings of strings. -/
def demoMarshal : Values → Except String String
  | [] => Except.ok ""
  | (k, Value.str v) :: rest =>
    match demoMarshal rest with
    | Except.ok out => Except.ok (k ++ ": " ++ v ++ "\n" ++ out)
    | Except.error e => Except.error e
  | (k, _) :: _ => Except.error ("yaml: unsupported value for " ++ k)

/-- The lines of a stream of documents, read from the first line on: every line is
empty, a `---` separator or a `key: value` pair, and the first line that is none of
these is reported. -/
def resMapLines : List (List Char) → Except String (List String)
  | [] => Except.ok []
  | line :: rest =>
    if line = [] ∨ line = ['-', '-', '-'] then
      resMapLines rest
    else
      match splitKey line with
      | none => Except.error ("yaml: could not find expected ':' in " ++ String.mk line)
      | some (k, v) =>
        match resMapLines rest with
        | Except.error e => Except.error e
        | Except.ok kinds =>
          if k = ['k', 'i', 'n', 'd'] then Except.ok (lineValue v :: kinds) else Except.ok kinds

/-- A resource map is the list of the `kind`s of its resources. -/
def demoNewResMap (b : String) : Except String (List String) :=
  resMapLines (splitChar '\n' b.data)

def demoEnv : Env FS (List String) where
  helmCommand := "helm"
  root := "/app"
  isAbs := filepathIsAbs
  join := filepathJoin
  tempDir := FS.tempDir
  load := FS.load "/app"
  writeFile := FS.writeFile
  removeAll := FS.removeAll
  stat := FS.stat
  environ := ["PATH=/usr/bin"]
  run := demoHelm
  marshal := demoMarshal
  unmarshal := demoUnmarshal
  newResMap := demoNewResMap

/-- A loader root that holds the chart `demo` with its values file. -/
def demoFS : FS where
  dirs := ["/app", "/app/charts", "/app/charts/demo", "/tmp"]
  files := [("/app/charts/demo/values.yaml", "x: base\ny: kept\n")]
  fresh := ["/tmp/kustomize-helm-1", "/tmp/kustomize-helm-2"]

def demoSys : Sys FS :=
  ⟨demoFS, []⟩

/-- The configuration that names the chart `demo` and sets nothing else. -/
def demoPlugin : HelmChartInflationGeneratorPlugin where
  ChartHome := ""
  ConfigHome := ""
  Name := "demo"
  Version := ""
  Repo := ""
  ReleaseName := ""
  Namespace := ""
  ValuesFile := ""
  ValuesInline := []
  ValuesMerge := ""
  IncludeCRDs := false
  tmpDir := ""

/-- The demo configuration with the given inline values and merge policy, as
`validateArgs` leaves it, and the world after that call. -/
def demoValidated (inline : Values) (merge : String) :
    HelmChartInflationGeneratorPlugin × Sys FS :=
  ((validateArgs demoEnv { demoPlugin with ValuesInline := inline, ValuesMerge := merge }
      demoSys).2.1,
    (validateArgs demoEnv { demoPlugin with ValuesInline := inline, ValuesMerge := merge }
      demoSys).2.2)

/-- The demo configuration for a chart `other` that is not below the chart home, as
`validateArgs` leaves it, and the world after that call. -/
def demoOther : HelmChartInflationGeneratorPlugin × Sys FS :=
  ((validateArgs demoEnv { demoPlugin with Name := "other" } demoSys).2.1,
    (validateArgs demoEnv { demoPlugin with Name := "other" } demoSys).2.2)

/-- The first `Generate` call on the validated demo configuration with the given inline
values and merge policy. -/
def demoFirst (inline : Values) (merge : String) :
    Except String (List String) × HelmChartInflationGeneratorPlugin × Sys FS :=
  Generate demoEnv (demoValidated inline merge).1 (demoValidated inline merge).2

/-- A second `Generate` call on the same plugin, in the world the first call left. -/
def demoSecond (inline : Values) (merge : String) :
    Except String (List String) × HelmChartInflationGeneratorPlugin × Sys FS :=
  Generate demoEnv (demoFirst inline merge).2.1 (demoFirst inline merge).2.2

/-- What every step of `Generate` keeps between the plugin `p` in the world `s` and the
plugin `q` in the world `t`: `ConfigHome` stays, the trace grows, and once `tmpDir` is
set it stays and `ioutil.TempDir` is not called. -/
def Keeps {W : Type} (p q : HelmChartInflationGeneratorPlugin) (s t : Sys W) : Prop :=
  q.ConfigHome = p.ConfigHome ∧
  ∃ evs, t.trace = s.trace ++ evs ∧ (p.tmpDir ≠ "" → q.tmpDir = p.tmpDir ∧ Event.tempDir ∉ evs)

/-! ## The version check as the specification words it -/

/-- The text `m` without one leading `v`. -/
def stripLeadingV (m : List Char) : List Char :=
  if m.head? = some 'v' then m.tail else m

/-- The component of `m` before its first dot. -/
def componentBeforeDot (m : List Char) : List Char :=
  m.takeWhile (fun c => c ≠ '.')

/-- The text `m` is a match of `v?\d+(\.\d+)+` in `s`, between `pre` and `post`, and
no match of the pattern in `s` starts further left. -/
def IsLeftmostMatch (s pre m post : List Char) : Prop :=
  s = pre ++ m ++ post ∧ m ∈ versionRE.matches' ∧
  ∀ pre1 m1 post1, s = pre1 ++ m1 ++ post1 → m1 ∈ versionRE.matches' →
    pre.length ≤ pre1.length

/-- A helm binary of major version 2 in the demo world. -/
def helm2Env : Env FS (List String) :=
  { demoEnv with run := fun fs _ _ _ => (("Client: v2.16.1+gbbdfe5e", "", false), fs) }

/-! ## Argument validation: theorems -/

section ValidationTheorems

variable {W R : Type}

theorem legal_any_iff (m : String) :
    legalMergeOptions.any (fun opt => m == opt) = true ↔
      m = "merge" ∨ m = "override" ∨ m = "replace" := by
  simp [legalMergeOptions, valuesMergeOptionMerge, valuesMergeOptionOverride,
    valuesMergeOptionReplace]

theorem illegal_message :
    "valuesMerge must be one of " ++ fmtStrings legalMergeOptions =
      "valuesMerge must be one of [merge override replace]" := by
  decide

theorem errIfIllegalValuesMerge_fst (p : HelmChartInflationGeneratorPlugin) :
    (errIfIllegalValuesMerge p).1 =
      if p.ValuesMerge = "" ∨ p.ValuesMerge = "merge" ∨ p.ValuesMerge = "override" ∨
          p.ValuesMerge = "replace" then none
      else some "valuesMerge must be one of [merge override replace]" := by
  unfold errIfIllegalValuesMerge
  by_cases h0 : p.ValuesMerge = ""
  · simp [h0]
  · by_cases h1 : legalMergeOptions.any (fun opt => p.ValuesMerge == opt) = true
    · have h2 := (legal_any_iff p.ValuesMerge).1 h1
      simp [h0, h1, h2]
    · have h2 : ¬ (p.ValuesMerge = "merge" ∨ p.ValuesMerge = "override" ∨
          p.ValuesMerge = "replace") := fun h => h1 ((legal_any_iff p.ValuesMerge).2 h)
      simp [h0, h1, h2, illegal_message]

theorem errIfIllegalValuesMerge_snd (p : HelmChartInflationGeneratorPlugin) :
    (errIfIllegalValuesMerge p).2 =
      if p.ValuesMerge = "" then { p with ValuesMerge := "override" } else p := by
  unfold errIfIllegalValuesMerge
  by_cases h0 : p.ValuesMerge = ""
  · simp [h0, valuesMergeOptionOverride]
  · by_cases h1 : legalMergeOptions.any (fun opt => p.ValuesMerge == opt) = true <;>
      simp [h0, h1]

theorem establishTmpDir_ok (env : Env W R) (p : HelmChartInflationGeneratorPlugin)
    (s : Sys W) (h : ∃ d w, env.tempDir s.world = (Except.ok d, w)) :
    (establishTmpDir env p s).1 = none := by
  obtain ⟨d, w, hd⟩ := h
  unfold establishTmpDir
  by_cases ht : p.tmpDir = ""
  · simp [ht, hd]
  · simp [ht]

/-- The plugin after the two defaults that `validateArgs` fills in before it looks at
`ValuesMerge`. -/
theorem validateArgs_of_name (env : Env W R) (p : HelmChartInflationGeneratorPlugin)
    (s : Sys W) (hName : p.Name ≠ "") :
    ∃ p2 : HelmChartInflationGeneratorPlugin,
      p2.ValuesMerge = p.ValuesMerge ∧
      p2.ChartHome = (if p.ChartHome = "" then "charts" else p.ChartHome) ∧
      p2.ValuesFile = (if p.ValuesFile = "" then
        env.join [p2.ChartHome, p.Name, "values.yaml"] else p.ValuesFile) ∧
      validateArgs env p s =
        (match errIfIllegalValuesMerge p2 with
        | (some e, p3) => (some e, p3, s)
        | (none, p3) =>
          if p3.ConfigHome = "" then
            match establishTmpDir env p3 s with
            | (some e, p4, s4) =>
              (some (errorsWrap e "unable to create tmp dir for HELM_CONFIG_HOME"), p4, s4)
            | (none, p4, s4) =>
              (none, { p4 with ConfigHome := env.join [p4.tmpDir, "helm"] }, s4)
          else
            (none, p3, s)) := by
  refine ⟨(if (if p.ChartHome = "" then { p with ChartHome := "charts" } else p).ValuesFile = ""
      then { (if p.ChartHome = "" then { p with ChartHome := "charts" } else p) with
        ValuesFile := env.join
          [(if p.ChartHome = "" then { p with ChartHome := "charts" } else p).ChartHome,
            (if p.ChartHome = "" then { p with ChartHome := "charts" } else p).Name,
            "values.yaml"] }
      else (if p.ChartHome = "" then { p with ChartHome := "charts" } else p)), ?_, ?_, ?_, ?_⟩
  · by_cases h1 : p.ChartHome = "" <;> by_cases h2 : p.ValuesFile = "" <;> simp [h1, h2]
  · by_cases h1 : p.ChartHome = "" <;> by_cases h2 : p.ValuesFile = "" <;> simp [h1, h2]
  · by_cases h1 : p.ChartHome = "" <;> by_cases h2 : p.ValuesFile = "" <;> simp [h1, h2]
  · unfold validateArgs
    rw [if_neg hName]

theorem establishTmpDir_fields (env : Env W R) (p : HelmChartInflationGeneratorPlugin)
    (s : Sys W) :
    ∃ d, (establishTmpDir env p s).2.1 = { p with tmpDir := d } := by
  unfold establishTmpDir
  by_cases ht : p.tmpDir = ""
  · rw [if_neg (by simpa using ht)]
    rcases hd : env.tempDir s.world with ⟨r, w⟩
    cases r with
    | ok d => exact ⟨d, rfl⟩
    | error e => exact ⟨"", rfl⟩
  · rw [if_pos ht]
    exact ⟨p.tmpDir, rfl⟩

/-- C1: provided a temporary directory can be created, `validateArgs` returns an error
exactly when `Name` is empty or `ValuesMerge` is a non-empty string other than
"merge", "override" and "replace"; an empty `Name` is reported as
"chart name cannot be empty" whatever `ValuesMerge` holds, and an illegal `ValuesMerge`
as "valuesMerge must be one of [merge override replace]". -/
theorem validateArgs_error_iff (env : Env W R) (p : HelmChartInflationGeneratorPlugin)
    (s : Sys W) (hTmp : ∃ d w, env.tempDir s.world = (Except.ok d, w)) :
    ((validateArgs env p s).1 ≠ none ↔
      p.Name = "" ∨ (p.ValuesMerge ≠ "" ∧ p.ValuesMerge ≠ "merge" ∧
        p.ValuesMerge ≠ "override" ∧ p.ValuesMerge ≠ "replace")) ∧
    (p.Name = "" → (validateArgs env p s).1 = some "chart name cannot be empty") ∧
    (p.Name ≠ "" → p.ValuesMerge ≠ "" → p.ValuesMerge ≠ "merge" →
      p.ValuesMerge ≠ "override" → p.ValuesMerge ≠ "replace" →
      (validateArgs env p s).1 = some "valuesMerge must be one of [merge override replace]") := by
  by_cases hName : p.Name = ""
  · have h : (validateArgs env p s).1 = some "chart name cannot be empty" := by
      unfold validateArgs
      rw [if_pos hName]
    refine ⟨?_, fun _ => h, fun hn => absurd hName hn⟩
    rw [h]
    simp [hName]
  · obtain ⟨p2, hM, -, -, hEq⟩ := validateArgs_of_name env p s hName
    have hfst := errIfIllegalValuesMerge_fst p2
    rw [hM] at hfst
    rcases hE : errIfIllegalValuesMerge p2 with ⟨e, p3⟩
    rw [hE] at hfst hEq
    simp only at hfst
    by_cases hLegal : p.ValuesMerge = "" ∨ p.ValuesMerge = "merge" ∨
        p.ValuesMerge = "override" ∨ p.ValuesMerge = "replace"
    · rw [if_pos hLegal] at hfst
      subst hfst
      have hnone : (validateArgs env p s).1 = none := by
        rw [hEq]
        by_cases hc : p3.ConfigHome = ""
        · simp only [hc, if_true]
          have hok := establishTmpDir_ok env p3 s hTmp
          rcases hT : establishTmpDir env p3 s with ⟨e4, p4, s4⟩
          rw [hT] at hok
          simp only at hok
          subst hok
          rfl
        · simp only [hc, if_false]
      refine ⟨?_, fun hn => absurd hn hName, ?_⟩
      · rw [hnone]
        constructor
        · intro h
          exact absurd rfl h
        · rintro (h | ⟨h0, h1, h2, h3⟩)
          · exact absurd h hName
          · rcases hLegal with h | h | h | h
            · exact absurd h h0
            · exact absurd h h1
            · exact absurd h h2
            · exact absurd h h3
      · intro _ h0 h1 h2 h3
        rcases hLegal with h | h | h | h
        · exact absurd h h0
        · exact absurd h h1
        · exact absurd h h2
        · exact absurd h h3
    · rw [if_neg hLegal] at hfst
      subst hfst
      have herr : (validateArgs env p s).1 =
          some "valuesMerge must be one of [merge override replace]" := by
        rw [hEq]
      refine ⟨?_, fun hn => absurd hn hName, fun _ _ _ _ _ => herr⟩
      rw [herr]
      constructor
      · intro _
        right
        refine ⟨fun h => hLegal (Or.inl h), fun h => hLegal (Or.inr (Or.inl h)),
          fun h => hLegal (Or.inr (Or.inr (Or.inl h))),
          fun h => hLegal (Or.inr (Or.inr (Or.inr h)))⟩
      · intro _
        simp

/-- The demo configuration passes `validateArgs` in the demo environment. -/
theorem validateArgs_error_iff_witness :
    (∃ d w, demoEnv.tempDir demoSys.world = (Except.ok d, w)) ∧
    (((validateArgs demoEnv demoPlugin demoSys).1 ≠ none ↔
      demoPlugin.Name = "" ∨ (demoPlugin.ValuesMerge ≠ "" ∧ demoPlugin.ValuesMerge ≠ "merge" ∧
        demoPlugin.ValuesMerge ≠ "override" ∧ demoPlugin.ValuesMerge ≠ "replace")) ∧
    (demoPlugin.Name = "" →
      (validateArgs demoEnv demoPlugin demoSys).1 = some "chart name cannot be empty") ∧
    (demoPlugin.Name ≠ "" → demoPlugin.ValuesMerge ≠ "" → demoPlugin.ValuesMerge ≠ "merge" →
      demoPlugin.ValuesMerge ≠ "override" → demoPlugin.ValuesMerge ≠ "replace" →
      (validateArgs demoEnv demoPlugin demoSys).1 =
        some "valuesMerge must be one of [merge override replace]")) :=
  ⟨⟨"/tmp/kustomize-helm-1", _, rfl⟩,
    validateArgs_error_iff demoEnv demoPlugin demoSys ⟨"/tmp/kustomize-helm-1", _, rfl⟩⟩

/-- When `Name` is not empty, on every path through `validateArgs` the three fields
with defaults end up as the defaults prescribe. -/
theorem validateArgs_fields (env : Env W R) (p : HelmChartInflationGeneratorPlugin)
    (s : Sys W) (hName : p.Name ≠ "") :
    (validateArgs env p s).2.1.ChartHome =
      (if p.ChartHome = "" then "charts" else p.ChartHome) ∧
    (validateArgs env p s).2.1.ValuesFile =
      (if p.ValuesFile = "" then
        env.join [if p.ChartHome = "" then "charts" else p.ChartHome, p.Name, "values.yaml"]
      else p.ValuesFile) ∧
    (validateArgs env p s).2.1.ValuesMerge =
      (if p.ValuesMerge = "" then "override" else p.ValuesMerge) := by
  obtain ⟨p2, hM, hC, hV, hEq⟩ := validateArgs_of_name env p s hName
  have hsnd := errIfIllegalValuesMerge_snd p2
  rw [hC] at hV
  have h3 : (errIfIllegalValuesMerge p2).2.ChartHome = p2.ChartHome ∧
      (errIfIllegalValuesMerge p2).2.ValuesFile = p2.ValuesFile ∧
      (errIfIllegalValuesMerge p2).2.ValuesMerge =
        (if p.ValuesMerge = "" then "override" else p.ValuesMerge) := by
    rw [hsnd, hM]
    by_cases h0 : p.ValuesMerge = ""
    · simp [h0]
    · simp [h0, hM]
  rw [hC, hV] at h3
  rcases hE : errIfIllegalValuesMerge p2 with ⟨e, p3⟩
  rw [hE] at h3 hEq
  simp only at h3
  cases e with
  | some e =>
    rw [hEq]
    exact h3
  | none =>
    by_cases hc : p3.ConfigHome = ""
    · obtain ⟨d, hd⟩ := establishTmpDir_fields env p3 s
      rcases hT : establishTmpDir env p3 s with ⟨e4, p4, s4⟩
      rw [hT] at hd
      simp only at hd
      subst hd
      rw [hEq]
      simp only [hc, if_true, hT]
      cases e4 <;> exact h3
    · rw [hEq]
      simp only [hc, if_false]
      exact h3

/-- C2: on every configuration that `validateArgs` accepts, `ChartHome` is "charts" if it
was empty and is unchanged otherwise, `ValuesFile` is the join of the resulting
`ChartHome`, `Name` and "values.yaml" if it was empty and is unchanged otherwise, and
`ValuesMerge` is "override" if it was empty and is unchanged otherwise. -/
theorem validateArgs_defaults (env : Env W R) (p : HelmChartInflationGeneratorPlugin)
    (s : Sys W) (hOk : (validateArgs env p s).1 = none) :
    (validateArgs env p s).2.1.ChartHome =
      (if p.ChartHome = "" then "charts" else p.ChartHome) ∧
    (validateArgs env p s).2.1.ValuesFile =
      (if p.ValuesFile = "" then
        env.join [(validateArgs env p s).2.1.ChartHome, p.Name, "values.yaml"]
      else p.ValuesFile) ∧
    (validateArgs env p s).2.1.ValuesMerge =
      (if p.ValuesMerge = "" then "override" else p.ValuesMerge) := by
  have hName : p.Name ≠ "" := by
    intro h
    unfold validateArgs at hOk
    rw [if_pos h] at hOk
    exact Option.noConfusion hOk
  obtain ⟨h1, h2, h3⟩ := validateArgs_fields env p s hName
  refine ⟨h1, ?_, h3⟩
  rw [h1]
  exact h2

/-- The demo configuration, which leaves all three fields empty, receives all three
defaults. -/
theorem validateArgs_defaults_witness :
    (validateArgs demoEnv demoPlugin demoSys).1 = none ∧
    ((validateArgs demoEnv demoPlugin demoSys).2.1.ChartHome =
      (if demoPlugin.ChartHome = "" then "charts" else demoPlugin.ChartHome) ∧
    (validateArgs demoEnv demoPlugin demoSys).2.1.ValuesFile =
      (if demoPlugin.ValuesFile = "" then
        demoEnv.join [(validateArgs demoEnv demoPlugin demoSys).2.1.ChartHome,
          demoPlugin.Name, "values.yaml"]
      else demoPlugin.ValuesFile) ∧
    (validateArgs demoEnv demoPlugin demoSys).2.1.ValuesMerge =
      (if demoPlugin.ValuesMerge = "" then "override" else demoPlugin.ValuesMerge)) :=
  ⟨rfl, validateArgs_defaults demoEnv demoPlugin demoSys rfl⟩

end ValidationTheorems

/-! ## The template command: theorems -/

section CommandTheorems

variable {W R : Type}

/-- C6: `templateCommand` returns "template", then `ReleaseName` if it is not empty, then
"--namespace" and `Namespace` if `Namespace` is not empty, then the join of the absolute
chart home and `Name`, then "--values" and `ValuesFile` if `ValuesFile` is not empty, then
"--generate-name" exactly when `ReleaseName` is empty, then "--include-crds" exactly
when `IncludeCRDs` is set, and nothing else; the absolute chart home is `ChartHome` when
that is absolute and the join of the loader root and `ChartHome` otherwise. -/
theorem templateCommand_eq (env : Env W R) (p : HelmChartInflationGeneratorPlugin) :
    templateCommand env p =
      ["template"] ++
      (if p.ReleaseName ≠ "" then [p.ReleaseName] else []) ++
      (if p.Namespace ≠ "" then ["--namespace", p.Namespace] else []) ++
      [env.join [absChartHome env p, p.Name]] ++
      (if p.ValuesFile ≠ "" then ["--values", p.ValuesFile] else []) ++
      (if p.ReleaseName = "" then ["--generate-name"] else []) ++
      (if p.IncludeCRDs = true then ["--include-crds"] else []) ∧
    absChartHome env p =
      (if env.isAbs p.ChartHome = true then p.ChartHome else env.join [env.root, p.ChartHome]) := by
  refine ⟨?_, rfl⟩
  unfold templateCommand
  by_cases h1 : p.ReleaseName = "" <;> by_cases h2 : p.Namespace = "" <;>
    by_cases h3 : p.ValuesFile = "" <;> by_cases h4 : p.IncludeCRDs = true <;>
    simp [h1, h2, h3, h4]

end CommandTheorems

/-! ## Values handling: theorems -/

section ValuesTheorems

variable {W R : Type}

theorem lookup_filter_key (l : Values) (keep : String → Bool) (x : String) :
    (l.filter (fun kv => keep kv.1)).lookup x = if keep x = true then l.lookup x else none := by
  induction l with
  | nil => simp
  | cons kv rest ih =>
    obtain ⟨k, v⟩ := kv
    by_cases hk : keep k = true
    · rw [List.filter_cons_of_pos (by simpa using hk)]
      by_cases hx : x = k
      · subst hx
        simp [hk]
      · have hb : (x == k) = false := by simpa using hx
        simp only [List.lookup_cons, hb]
        exact ih
    · rw [List.filter_cons_of_neg (by simpa using hk)]
      by_cases hx : x = k
      · subst hx
        rw [ih]
        simp [hk]
      · have hb : (x == k) = false := by simpa using hx
        simp only [List.lookup_cons, hb]
        exact ih

theorem mergoMerge_override_lookup (dst src : Values) (x : String) :
    (mergoMerge dst src true).1.lookup x = (src.lookup x).or (dst.lookup x) := by
  unfold mergoMerge
  simp only [if_true]
  rw [List.lookup_append, lookup_filter_key dst (fun k => (src.lookup k).isNone) x]
  cases h : src.lookup x <;> simp

theorem mergoMerge_keep_lookup (dst src : Values) (x : String) :
    (mergoMerge dst src false).1.lookup x = (dst.lookup x).or (src.lookup x) := by
  unfold mergoMerge
  simp only [Bool.false_eq_true, if_false]
  rw [List.lookup_append, lookup_filter_key src (fun k => (dst.lookup k).isNone) x]
  cases h : dst.lookup x <;> simp

theorem mergoMerge_snd (dst src : Values) (o : Bool) : (mergoMerge dst src o).2 = none := by
  unfold mergoMerge
  cases o <;> simp

theorem replaceValuesInline_loaded (env : Env W R) (p : HelmChartInflationGeneratorPlugin)
    (s : Sys W) (bytes : String) (base : Values)
    (hLoad : env.load s.world p.ValuesFile = Except.ok bytes)
    (hParse : env.unmarshal bytes = Except.ok base) :
    replaceValuesInline env p s =
      ((if p.ValuesMerge = valuesMergeOptionOverride then mergoMerge base p.ValuesInline true
        else if p.ValuesMerge = valuesMergeOptionMerge then mergoMerge base p.ValuesInline false
        else (base, none)).2,
       { p with ValuesInline :=
          (if p.ValuesMerge = valuesMergeOptionOverride then mergoMerge base p.ValuesInline true
          else if p.ValuesMerge = valuesMergeOptionMerge then
            mergoMerge base p.ValuesInline false
          else (base, none)).1 },
       ⟨s.world, s.trace ++ [Event.load p.ValuesFile]⟩) := by
  unfold replaceValuesInline
  simp only [hLoad, hParse]

theorem writeValuesBytes_fields (env : Env W R) (p : HelmChartInflationGeneratorPlugin)
    (s : Sys W) (b : String) :
    ∃ d, (writeValuesBytes env p s b).2.1 = { p with tmpDir := d } := by
  obtain ⟨d, hd⟩ := establishTmpDir_fields env p s
  unfold writeValuesBytes
  rcases hT : establishTmpDir env p s with ⟨e, p1, s1⟩
  rw [hT] at hd
  simp only at hd
  subst hd
  cases e with
  | some e => exact ⟨d, rfl⟩
  | none => exact ⟨d, rfl⟩

/-- What `createNewMergedValuesFile` leaves in `ValuesInline` is what
`replaceValuesInline` put there, for the two policies that call it. -/
theorem createNewMergedValuesFile_inline (env : Env W R)
    (p : HelmChartInflationGeneratorPlugin) (s : Sys W)
    (hMerge : p.ValuesMerge = "merge" ∨ p.ValuesMerge = "override") :
    (createNewMergedValuesFile env p s).2.1.ValuesInline =
      (replaceValuesInline env p s).2.1.ValuesInline := by
  unfold createNewMergedValuesFile
  have hc : p.ValuesMerge = valuesMergeOptionMerge ∨ p.ValuesMerge = valuesMergeOptionOverride :=
    hMerge
  simp only [hc, if_true]
  rcases hR : replaceValuesInline env p s with ⟨e, p1, s1⟩
  cases e with
  | some e => rfl
  | none =>
    simp only
    cases hm : env.marshal p1.ValuesInline with
    | error e => rfl
    | ok b =>
      simp only
      obtain ⟨d, hd⟩ := writeValuesBytes_fields env p1 s1 b
      rw [hd]

/-- C3: with `ValuesMerge` "override", a values file that loads and parses to the mapping
`base`, and a non-empty `ValuesInline`, `replaceValuesInline` reports no error and every
key held by both `base` and `ValuesInline` is mapped to the inline value in the
`ValuesInline` it leaves behind, which is also what `createNewMergedValuesFile` leaves
behind. -/
theorem replaceValuesInline_override (env : Env W R) (p : HelmChartInflationGeneratorPlugin)
    (s : Sys W) (bytes : String) (base : Values)
    (hMerge : p.ValuesMerge = "override")
    (hLoad : env.load s.world p.ValuesFile = Except.ok bytes)
    (hParse : env.unmarshal bytes = Except.ok base)
    (_hInline : p.ValuesInline ≠ []) :
    (replaceValuesInline env p s).1 = none ∧
    ∀ (x : String) (vb vi : Value), base.lookup x = some vb →
      p.ValuesInline.lookup x = some vi →
      (replaceValuesInline env p s).2.1.ValuesInline.lookup x = some vi ∧
      (createNewMergedValuesFile env p s).2.1.ValuesInline.lookup x = some vi := by
  have hEq := replaceValuesInline_loaded env p s bytes base hLoad hParse
  have hc : p.ValuesMerge = valuesMergeOptionOverride := hMerge
  simp only [hc, if_true] at hEq
  refine ⟨?_, ?_⟩
  · rw [hEq]
    exact mergoMerge_snd _ _ _
  · intro x vb vi _ hi
    rw [createNewMergedValuesFile_inline env p s (Or.inr hMerge), hEq]
    simp only [and_self]
    rw [mergoMerge_override_lookup, hi]
    rfl

/-- The demo chart maps `x` to "base"; with the inline value "inline" for `x` and the
policy "override", `x` ends up as "inline". -/
theorem replaceValuesInline_override_witness :
    (demoValidated [("x", Value.str "inline"), ("z", Value.str "new")] "override").1.ValuesMerge =
      "override" ∧
    (replaceValuesInline demoEnv
      (demoValidated [("x", Value.str "inline"), ("z", Value.str "new")] "override").1
      (demoValidated [("x", Value.str "inline"), ("z", Value.str "new")] "override").2).2.1.ValuesInline.lookup
        "x" = some (Value.str "inline") :=
  ⟨rfl,
    ((replaceValuesInline_override demoEnv
      (demoValidated [("x", Value.str "inline"), ("z", Value.str "new")] "override").1
      (demoValidated [("x", Value.str "inline"), ("z", Value.str "new")] "override").2
      "x: base\ny: kept\n" [("x", Value.str "base"), ("y", Value.str "kept")]
      rfl rfl rfl (List.cons_ne_nil _ _)).2
      "x" (Value.str "base") (Value.str "inline") rfl rfl).1⟩

/-- C4: with `ValuesMerge` "merge", a values file that loads and parses to the mapping
`base`, and a non-empty `ValuesInline`, `replaceValuesInline` reports no error; every key
held by both `base` and `ValuesInline` is mapped to the base value in the `ValuesInline`
it leaves behind, and every key held by `ValuesInline` alone is mapped to its inline
value there. -/
theorem replaceValuesInline_merge (env : Env W R) (p : HelmChartInflationGeneratorPlugin)
    (s : Sys W) (bytes : String) (base : Values)
    (hMerge : p.ValuesMerge = "merge")
    (hLoad : env.load s.world p.ValuesFile = Except.ok bytes)
    (hParse : env.unmarshal bytes = Except.ok base)
    (_hInline : p.ValuesInline ≠ []) :
    (replaceValuesInline env p s).1 = none ∧
    (∀ (x : String) (vb vi : Value), base.lookup x = some vb →
      p.ValuesInline.lookup x = some vi →
      (replaceValuesInline env p s).2.1.ValuesInline.lookup x = some vb) ∧
    (∀ (x : String) (vi : Value), base.lookup x = none →
      p.ValuesInline.lookup x = some vi →
      (replaceValuesInline env p s).2.1.ValuesInline.lookup x = some vi) := by
  have hEq := replaceValuesInline_loaded env p s bytes base hLoad hParse
  have hc : p.ValuesMerge = valuesMergeOptionMerge := hMerge
  have hne : ¬ p.ValuesMerge = valuesMergeOptionOverride := by
    rw [hMerge]
    decide
  simp only [hc, hne, if_true, if_false] at hEq
  have hne2 : ¬ valuesMergeOptionMerge = valuesMergeOptionOverride := by decide
  simp only [hne2, if_false] at hEq
  refine ⟨?_, ?_, ?_⟩
  · rw [hEq]
    exact mergoMerge_snd _ _ _
  · intro x vb vi hb _
    rw [hEq]
    simp only
    rw [mergoMerge_keep_lookup, hb]
    rfl
  · intro x vi hb hi
    rw [hEq]
    simp only
    rw [mergoMerge_keep_lookup, hb, hi]
    rfl

/-- The demo chart maps `x` to "base" and has no `z`; with the inline values "inline" for
`x` and "new" for `z` and the policy "merge", `x` stays "base" and `z` becomes "new". -/
theorem replaceValuesInline_merge_witness :
    (demoValidated [("x", Value.str "inline"), ("z", Value.str "new")] "merge").1.ValuesMerge =
      "merge" ∧
    (replaceValuesInline demoEnv
      (demoValidated [("x", Value.str "inline"), ("z", Value.str "new")] "merge").1
      (demoValidated [("x", Value.str "inline"), ("z", Value.str "new")] "merge").2).2.1.ValuesInline.lookup
        "x" = some (Value.str "base") ∧
    (replaceValuesInline demoEnv
      (demoValidated [("x", Value.str "inline"), ("z", Value.str "new")] "merge").1
      (demoValidated [("x", Value.str "inline"), ("z", Value.str "new")] "merge").2).2.1.ValuesInline.lookup
        "z" = some (Value.str "new") :=
  ⟨rfl,
    (replaceValuesInline_merge demoEnv
      (demoValidated [("x", Value.str "inline"), ("z", Value.str "new")] "merge").1
      (demoValidated [("x", Value.str "inline"), ("z", Value.str "new")] "merge").2
      "x: base\ny: kept\n" [("x", Value.str "base"), ("y", Value.str "kept")]
      rfl rfl rfl (List.cons_ne_nil _ _)).2.1
      "x" (Value.str "base") (Value.str "inline") rfl rfl,
    (replaceValuesInline_merge demoEnv
      (demoValidated [("x", Value.str "inline"), ("z", Value.str "new")] "merge").1
      (demoValidated [("x", Value.str "inline"), ("z", Value.str "new")] "merge").2
      "x: base\ny: kept\n" [("x", Value.str "base"), ("y", Value.str "kept")]
      rfl rfl rfl (List.cons_ne_nil _ _)).2.2
      "z" (Value.str "new") rfl rfl⟩

/-- Under the policy "replace" and with inline values, `createNewMergedValuesFile`
neither loads nor merges: it serializes `ValuesInline` and writes the result. -/
theorem createNewMergedValuesFile_replace (env : Env W R)
    (p : HelmChartInflationGeneratorPlugin) (s : Sys W) (hMerge : p.ValuesMerge = "replace") :
    createNewMergedValuesFile env p s =
      (match env.marshal p.ValuesInline with
      | Except.error e => (("", some e), p, s)
      | Except.ok b => writeValuesBytes env p s b) := by
  unfold createNewMergedValuesFile
  have h1 : ¬ (p.ValuesMerge = valuesMergeOptionMerge ∨
      p.ValuesMerge = valuesMergeOptionOverride) := by
    rw [hMerge]
    decide
  simp only [h1, if_false]

theorem resolveValues_of_inline (env : Env W R) (p : HelmChartInflationGeneratorPlugin)
    (s : Sys W) (hInline : p.ValuesInline ≠ []) :
    Generate.resolveValues env p s =
      ((createNewMergedValuesFile env p s).1.2,
       { (createNewMergedValuesFile env p s).2.1 with
          ValuesFile := (createNewMergedValuesFile env p s).1.1 },
       (createNewMergedValuesFile env p s).2.2) := by
  unfold Generate.resolveValues
  have hlen : p.ValuesInline.length > 0 := List.length_pos.2 hInline
  simp only [hlen, if_true]

/-- C5, without inline values: the demo configuration with the policy "replace" and an
empty `ValuesInline` serializes to the empty document, yet the values-resolution step
loads the base values file and writes its two lines to the temporary values file, and
the same step fails once the base values file is gone. -/
theorem resolveValues_replace_without_inline :
    (demoValidated [] "replace").1.ValuesMerge = "replace" ∧
    demoEnv.marshal (demoValidated [] "replace").1.ValuesInline = Except.ok "" ∧
    (Generate.resolveValues demoEnv (demoValidated [] "replace").1
        (demoValidated [] "replace").2).1 = none ∧
    (Generate.resolveValues demoEnv (demoValidated [] "replace").1
        (demoValidated [] "replace").2).2.2.trace =
      [Event.tempDir, Event.load "charts/demo/values.yaml",
        Event.writeFile "/tmp/kustomize-helm-1/demo-kustomize-values.yaml" "x: base\ny: kept\n"] ∧
    (Generate.resolveValues demoEnv (demoValidated [] "replace").1
        ⟨{ (demoValidated [] "replace").2.world with files := [] },
          (demoValidated [] "replace").2.trace⟩).1 =
      some "open /app/charts/demo/values.yaml: no such file or directory" :=
  ⟨rfl, rfl, rfl, rfl, rfl⟩

/-- The values-resolution step under the policy "replace" with inline values: nothing
is loaded, `ValuesInline` stays, and its serialization is what gets written. -/
theorem resolveValues_replace_inline (env : Env W R) (p : HelmChartInflationGeneratorPlugin)
    (s : Sys W) (hMerge : p.ValuesMerge = "replace") (hInline : p.ValuesInline ≠ []) :
    (Generate.resolveValues env p s).2.1.ValuesInline = p.ValuesInline ∧
    (∀ (b : String) (p1 : HelmChartInflationGeneratorPlugin) (s1 : Sys W),
      env.marshal p.ValuesInline = Except.ok b →
      establishTmpDir env p s = (none, p1, s1) →
      Generate.resolveValues env p s =
        ((env.writeFile s1.world
            (env.join [p1.tmpDir, p.Name ++ "-kustomize-values.yaml"]) b).1,
         { p1 with ValuesFile := env.join [p1.tmpDir, p.Name ++ "-kustomize-values.yaml"] },
         ⟨(env.writeFile s1.world
            (env.join [p1.tmpDir, p.Name ++ "-kustomize-values.yaml"]) b).2,
          s1.trace ++
            [Event.writeFile (env.join [p1.tmpDir, p.Name ++ "-kustomize-values.yaml"]) b]⟩)) ∧
    (∀ load : W → String → Except String String,
      Generate.resolveValues { env with load := load } p s = Generate.resolveValues env p s) := by
  have hR := resolveValues_of_inline env p s hInline
  have hC := createNewMergedValuesFile_replace env p s hMerge
  refine ⟨?_, ?_, ?_⟩
  · rw [hR, hC]
    cases hm : env.marshal p.ValuesInline with
    | error e => rfl
    | ok b =>
      simp only
      obtain ⟨d, hd⟩ := writeValuesBytes_fields env p s b
      rw [hd]
  · intro b p1 s1 hm hT
    obtain ⟨d, hd⟩ := establishTmpDir_fields env p s
    rw [hT] at hd
    simp only at hd
    subst hd
    rw [hR, hC, hm]
    simp only [writeValuesBytes, hT]
  · intro load
    rw [hR, resolveValues_of_inline { env with load := load } p s hInline, hC,
      createNewMergedValuesFile_replace { env with load := load } p s hMerge]
    cases hm : env.marshal p.ValuesInline with
    | error e => rfl
    | ok b => rfl

/-- The values-resolution step without inline values, whatever the merge policy: it is
`copyValuesFile`, which loads the base values file, fails with the error of the loader
when the load fails, and otherwise hands the loaded bytes to `writeValuesBytes`. -/
theorem resolveValues_of_empty (env : Env W R) (p : HelmChartInflationGeneratorPlugin)
    (s : Sys W) (hEmpty : p.ValuesInline = []) :
    Generate.resolveValues env p s =
      ((copyValuesFile env p s).1.2,
       { (copyValuesFile env p s).2.1 with ValuesFile := (copyValuesFile env p s).1.1 },
       (copyValuesFile env p s).2.2) ∧
    (Generate.resolveValues env p s).2.1.ValuesInline = [] ∧
    (∀ e, env.load s.world p.ValuesFile = Except.error e →
      Generate.resolveValues env p s =
        (some e, { p with ValuesFile := "" },
          ⟨s.world, s.trace ++ [Event.load p.ValuesFile]⟩)) ∧
    (∀ b, env.load s.world p.ValuesFile = Except.ok b →
      Generate.resolveValues env p s =
        ((writeValuesBytes env p ⟨s.world, s.trace ++ [Event.load p.ValuesFile]⟩ b).1.2,
         { (writeValuesBytes env p ⟨s.world, s.trace ++ [Event.load p.ValuesFile]⟩ b).2.1 with
            ValuesFile :=
              (writeValuesBytes env p ⟨s.world, s.trace ++ [Event.load p.ValuesFile]⟩ b).1.1 },
         (writeValuesBytes env p ⟨s.world, s.trace ++ [Event.load p.ValuesFile]⟩ b).2.2)) := by
  have hR : Generate.resolveValues env p s =
      ((copyValuesFile env p s).1.2,
       { (copyValuesFile env p s).2.1 with ValuesFile := (copyValuesFile env p s).1.1 },
       (copyValuesFile env p s).2.2) := by
    unfold Generate.resolveValues
    have hlen : ¬ p.ValuesInline.length > 0 := by
      rw [hEmpty]
      exact Nat.lt_irrefl 0
    simp only [hlen, if_false]
  refine ⟨hR, ?_, ?_, ?_⟩
  · rw [hR]
    unfold copyValuesFile
    cases env.load s.world p.ValuesFile with
    | error e => exact hEmpty
    | ok b =>
      simp only
      obtain ⟨d, hd⟩ := writeValuesBytes_fields env p
        ⟨s.world, s.trace ++ [Event.load p.ValuesFile]⟩ b
      rw [hd]
      exact hEmpty
  · intro e he
    rw [hR]
    unfold copyValuesFile
    rw [he]
  · intro b hb
    rw [hR]
    unfold copyValuesFile
    rw [hb]

/-- C5, amended.  With `ValuesMerge` "replace" and a non-empty `ValuesInline`, the
values-resolution step of `Generate` leaves `ValuesInline` unchanged; when `ValuesInline`
serializes to `b` and the temporary directory is there or can be created, the step is
exactly one `WriteFile` of `b` to `<Name>-kustomize-values.yaml` in the temporary
directory, whose path becomes `ValuesFile`; and the step is the same whatever the loader
would return for any path.  With an empty `ValuesInline`, whatever `ValuesMerge` is, the
step is `copyValuesFile`: it loads the base values file, fails with the error of the
loader when that load fails, and otherwise writes the loaded bytes through
`writeValuesBytes`, leaving `ValuesInline` empty. -/
theorem resolveValues_replace (env : Env W R) (p : HelmChartInflationGeneratorPlugin)
    (s : Sys W) :
    (p.ValuesMerge = "replace" → p.ValuesInline ≠ [] →
      (Generate.resolveValues env p s).2.1.ValuesInline = p.ValuesInline ∧
      (∀ (b : String) (p1 : HelmChartInflationGeneratorPlugin) (s1 : Sys W),
        env.marshal p.ValuesInline = Except.ok b →
        establishTmpDir env p s = (none, p1, s1) →
        Generate.resolveValues env p s =
          ((env.writeFile s1.world
              (env.join [p1.tmpDir, p.Name ++ "-kustomize-values.yaml"]) b).1,
           { p1 with ValuesFile := env.join [p1.tmpDir, p.Name ++ "-kustomize-values.yaml"] },
           ⟨(env.writeFile s1.world
              (env.join [p1.tmpDir, p.Name ++ "-kustomize-values.yaml"]) b).2,
            s1.trace ++
              [Event.writeFile (env.join [p1.tmpDir, p.Name ++ "-kustomize-values.yaml"]) b]⟩)) ∧
      (∀ load : W → String → Except String String,
        Generate.resolveValues { env with load := load } p s =
          Generate.resolveValues env p s)) ∧
    (p.ValuesInline = [] →
      Generate.resolveValues env p s =
        ((copyValuesFile env p s).1.2,
         { (copyValuesFile env p s).2.1 with ValuesFile := (copyValuesFile env p s).1.1 },
         (copyValuesFile env p s).2.2) ∧
      (Generate.resolveValues env p s).2.1.ValuesInline = [] ∧
      (∀ e, env.load s.world p.ValuesFile = Except.error e →
        Generate.resolveValues env p s =
          (some e, { p with ValuesFile := "" },
            ⟨s.world, s.trace ++ [Event.load p.ValuesFile]⟩)) ∧
      (∀ b, env.load s.world p.ValuesFile = Except.ok b →
        Generate.resolveValues env p s =
          ((writeValuesBytes env p ⟨s.world, s.trace ++ [Event.load p.ValuesFile]⟩ b).1.2,
           { (writeValuesBytes env p ⟨s.world, s.trace ++ [Event.load p.ValuesFile]⟩ b).2.1 with
              ValuesFile :=
                (writeValuesBytes env p
                  ⟨s.world, s.trace ++ [Event.load p.ValuesFile]⟩ b).1.1 },
           (writeValuesBytes env p
              ⟨s.world, s.trace ++ [Event.load p.ValuesFile]⟩ b).2.2))) :=
  ⟨resolveValues_replace_inline env p s, resolveValues_of_empty env p s⟩

/-- The demo configuration under the policy "replace": with one inline value the step
keeps the inline values; with none it fails with the error of the loader once the base
values file is gone. -/
theorem resolveValues_replace_witness :
    (demoValidated [("x", Value.str "inline")] "replace").1.ValuesMerge = "replace" ∧
    (demoValidated [("x", Value.str "inline")] "replace").1.ValuesInline ≠ [] ∧
    (Generate.resolveValues demoEnv (demoValidated [("x", Value.str "inline")] "replace").1
        (demoValidated [("x", Value.str "inline")] "replace").2).2.1.ValuesInline =
      (demoValidated [("x", Value.str "inline")] "replace").1.ValuesInline ∧
    (demoValidated [] "replace").1.ValuesInline = [] ∧
    (Generate.resolveValues demoEnv (demoValidated [] "replace").1
        ⟨{ (demoValidated [] "replace").2.world with files := [] }, []⟩).1 =
      some "open /app/charts/demo/values.yaml: no such file or directory" :=
  ⟨rfl, List.cons_ne_nil _ _,
    ((resolveValues_replace demoEnv (demoValidated [("x", Value.str "inline")] "replace").1
      (demoValidated [("x", Value.str "inline")] "replace").2).1 rfl (List.cons_ne_nil _ _)).1,
    rfl,
    congrArg (fun r => r.1)
      (((resolveValues_replace demoEnv (demoValidated [] "replace").1
        ⟨{ (demoValidated [] "replace").2.world with files := [] }, []⟩).2 rfl).2.2.1
        "open /app/charts/demo/values.yaml: no such file or directory" rfl)⟩

end ValuesTheorems

/-! ## Parsing the output of helm: theorems -/

section ParseTheorems

variable {W R : Type}

/-- Either `sub` does not occur in `s` and `indexFrom` answers `-1`, or `indexFrom`
answers the offset of the occurrence that starts first. -/
theorem indexFrom_spec (sub : List Char) (s : List Char) (i : Nat) :
    (indexFrom sub s i = -1 ∧ ∀ pre post, s ≠ pre ++ sub ++ post) ∨
    (∃ pre post, s = pre ++ sub ++ post ∧ indexFrom sub s i = ((i + pre.length : Nat) : Int) ∧
      ∀ pre1 post1, s = pre1 ++ sub ++ post1 → pre.length ≤ pre1.length) := by
  induction s generalizing i with
  | nil =>
    by_cases hs : sub = []
    · right
      refine ⟨[], [], by simp [hs], by simp [indexFrom, hs], fun _ _ _ => Nat.zero_le _⟩
    · left
      refine ⟨by simp [indexFrom, hs], ?_⟩
      intro pre post h
      have h1 := congrArg List.length h
      simp only [List.length_nil, List.length_append] at h1
      have h2 : sub.length = 0 := by omega
      exact hs (List.length_eq_zero.1 h2)
  | cons c t ih =>
    by_cases hp : sub.isPrefixOf (c :: t) = true
    · right
      obtain ⟨post, hpost⟩ := List.isPrefixOf_iff_prefix.1 hp
      refine ⟨[], post, by simp [hpost], by simp [indexFrom, hp], fun _ _ _ => Nat.zero_le _⟩
    · have hstep : indexFrom sub (c :: t) i = indexFrom sub t (i + 1) := by
        simp [indexFrom, hp]
      have hnohead : ∀ post, c :: t ≠ sub ++ post := by
        intro post h
        exact hp (List.isPrefixOf_iff_prefix.2 ⟨post, h.symm⟩)
      rcases ih (i + 1) with ⟨hneg, hno⟩ | ⟨pre, post, hocc, hidx, hmin⟩
      · left
        refine ⟨by rw [hstep, hneg], ?_⟩
        intro pre post h
        cases pre with
        | nil => exact hnohead post (by simpa using h)
        | cons a pre1 =>
          simp only [List.cons_append, List.cons.injEq] at h
          exact hno pre1 post h.2
      · right
        refine ⟨c :: pre, post, by simp [hocc], ?_, ?_⟩
        · rw [hstep, hidx]
          simp only [List.length_cons]
          congr 1
          omega
        · intro pre1 post1 h
          cases pre1 with
          | nil => exact absurd (by simpa using h) (hnohead post1)
          | cons a pre2 =>
            simp only [List.cons_append, List.cons.injEq] at h
            have := hmin pre2 post1 h.2
            simp only [List.length_cons]
            omega

/-- The answer of `strings.Index` at the first occurrence of `sub`. -/
theorem stringsIndex_first (s sub : String) (pre post : List Char)
    (hocc : s.data = pre ++ sub.data ++ post)
    (hmin : ∀ pre1 post1, s.data = pre1 ++ sub.data ++ post1 → pre.length ≤ pre1.length) :
    stringsIndex s sub = (pre.length : Int) ∧ s.data.drop pre.length = sub.data ++ post := by
  unfold stringsIndex
  rcases indexFrom_spec sub.data s.data 0 with ⟨-, hno⟩ | ⟨pre0, post0, hocc0, hidx, hmin0⟩
  · exact absurd hocc (hno pre post)
  · have hlen : pre0.length = pre.length :=
      Nat.le_antisymm (hmin0 pre post hocc) (hmin pre0 post0 hocc0)
    refine ⟨by rw [hidx, hlen]; simp, ?_⟩
    rw [hocc, List.append_assoc, List.drop_left]

theorem stringsIndex_none (s sub : String)
    (hno : ∀ pre post, s.data ≠ pre ++ sub.data ++ post) :
    stringsIndex s sub = -1 := by
  unfold stringsIndex
  rcases indexFrom_spec sub.data s.data 0 with ⟨h, -⟩ | ⟨pre0, post0, hocc0, -, -⟩
  · exact h
  · exact absurd hocc0 (hno pre0 post0)

/-- An occurrence of `sub` in `s` bounds the answer of `strings.Index` from above. -/
theorem stringsIndex_le (s sub : String) (pre post : List Char)
    (hocc : s.data = pre ++ sub.data ++ post) :
    0 ≤ stringsIndex s sub ∧ stringsIndex s sub ≤ (pre.length : Int) := by
  unfold stringsIndex
  rcases indexFrom_spec sub.data s.data 0 with ⟨-, hno⟩ | ⟨pre0, post0, -, hidx, hmin0⟩
  · exact absurd hocc (hno pre post)
  · have := hmin0 pre post hocc
    rw [hidx]
    constructor
    · exact Int.natCast_nonneg _
    · simp only [Nat.zero_add]
      exact_mod_cast this

/-- C9, a failed retry: on the output "Some warning", "---", "not yaml" the first parse
fails at the line "Some warning" and the retry from "---" fails at the line "not yaml";
the parse step returns the error of the retry, not the error of the first attempt. -/
theorem parseOutput_retry_error :
    demoEnv.newResMap "Some warning\n---\nnot yaml\n" =
      Except.error "yaml: could not find expected ':' in Some warning" ∧
    stringsIndex "Some warning\n---\nnot yaml\n" "---" = 13 ∧
    demoEnv.newResMap "---\nnot yaml\n" =
      Except.error "yaml: could not find expected ':' in not yaml" ∧
    Generate.parseOutput demoEnv "Some warning\n---\nnot yaml\n" =
      Except.error "yaml: could not find expected ':' in not yaml" ∧
    Generate.parseOutput demoEnv "Some warning\n---\nnot yaml\n" ≠
      Except.error "yaml: could not find expected ':' in Some warning" :=
  ⟨rfl, by decide, rfl, rfl, fun h => by
    have h1 : Generate.parseOutput demoEnv "Some warning\n---\nnot yaml\n" =
        Except.error "yaml: could not find expected ':' in not yaml" := rfl
    rw [h1] at h
    exact absurd (Except.error.inj h) (by decide)⟩

/-- C9, amended: the parse step of `Generate` returns the parsed collection when parsing
all of stdout succeeds; when that fails and stdout contains "---", it returns whatever
parsing stdout from the first "---" onward returns, the collection if the retry succeeds
and the error of the retry if it fails; when that fails and stdout holds no "---", it
returns the error of the first attempt. -/
theorem parseOutput_spec (env : Env W R) (stdout : String) :
    (∀ rm, env.newResMap stdout = Except.ok rm →
      Generate.parseOutput env stdout = Except.ok rm) ∧
    (∀ e pre post, env.newResMap stdout = Except.error e →
      stdout.data = pre ++ "---".data ++ post →
      (∀ pre1 post1, stdout.data = pre1 ++ "---".data ++ post1 → pre.length ≤ pre1.length) →
      Generate.parseOutput env stdout = env.newResMap (String.mk ("---".data ++ post))) ∧
    (∀ e, env.newResMap stdout = Except.error e →
      (∀ pre post, stdout.data ≠ pre ++ "---".data ++ post) →
      Generate.parseOutput env stdout = Except.error e) := by
  refine ⟨?_, ?_, ?_⟩
  · intro rm h
    unfold Generate.parseOutput
    rw [h]
  · intro e pre post h hocc hmin
    obtain ⟨hidx, hdrop⟩ := stringsIndex_first stdout "---" pre post hocc hmin
    unfold Generate.parseOutput
    rw [h]
    simp only [hidx]
    have hne : ((pre.length : Nat) : Int) ≠ -1 := by omega
    rw [if_pos hne, Int.toNat_ofNat, hdrop]
  · intro e h hno
    have hidx := stringsIndex_none stdout "---" hno
    unfold Generate.parseOutput
    rw [h]
    simp only [hidx, ne_eq, not_true_eq_false, if_false]

/-- The output "Some warning", "---", then one ConfigMap: the first parse fails, the
first "---" is at offset 13, and the retry from there yields the ConfigMap. -/
theorem parseOutput_spec_witness :
    demoEnv.newResMap "Some warning\n---\napiVersion: v1\nkind: ConfigMap\n" =
      Except.error "yaml: could not find expected ':' in Some warning" ∧
    Generate.parseOutput demoEnv "Some warning\n---\napiVersion: v1\nkind: ConfigMap\n" =
      Except.ok ["ConfigMap"] :=
  ⟨rfl,
    ((parseOutput_spec demoEnv "Some warning\n---\napiVersion: v1\nkind: ConfigMap\n").2.1
      "yaml: could not find expected ':' in Some warning"
      "Some warning\n".data "\napiVersion: v1\nkind: ConfigMap\n".data rfl rfl
      (fun pre1 post1 h => by
        have hle := (stringsIndex_le "Some warning\n---\napiVersion: v1\nkind: ConfigMap\n"
          "---" pre1 post1 h).2
        have hidx : stringsIndex "Some warning\n---\napiVersion: v1\nkind: ConfigMap\n" "---" =
            13 := by decide
        rw [hidx] at hle
        have hlen : "Some warning\n".data.length = 13 := by decide
        rw [hlen]
        exact_mod_cast hle)).trans rfl⟩

end ParseTheorems

/-! ## Generate: theorems -/

section GenerateTheorems

variable {W R : Type}

theorem runHelmCommand_snd (env : Env W R) (p : HelmChartInflationGeneratorPlugin)
    (s : Sys W) (args : List String) :
    (runHelmCommand env p s args).2 =
      ⟨(env.run s.world env.helmCommand args (env.environ ++ helmEnv p)).2,
        s.trace ++ [Event.exec env.helmCommand args (env.environ ++ helmEnv p)]⟩ := by
  unfold runHelmCommand
  rcases env.run s.world env.helmCommand args (env.environ ++ helmEnv p) with
    ⟨⟨out, err, failed⟩, w⟩
  cases failed <;> rfl

theorem checkHelmVersion_snd (env : Env W R) (p : HelmChartInflationGeneratorPlugin)
    (s : Sys W) :
    (checkHelmVersion env p s).2 = (runHelmCommand env p s ["version", "-c", "--short"]).2 := by
  unfold checkHelmVersion
  rcases runHelmCommand env p s ["version", "-c", "--short"] with ⟨⟨out, e⟩, s1⟩
  cases e <;> rfl

theorem chartExistsLocally_snd (env : Env W R) (p : HelmChartInflationGeneratorPlugin)
    (s : Sys W) :
    (chartExistsLocally env p s).2 =
      ⟨s.world, s.trace ++ [Event.stat (env.join [absChartHome env p, p.Name])]⟩ := by
  unfold chartExistsLocally
  simp only
  split <;> rfl

theorem Keeps.refl (p : HelmChartInflationGeneratorPlugin) (s : Sys W) : Keeps p p s s :=
  ⟨rfl, [], by simp, fun _ => ⟨rfl, by simp⟩⟩

theorem Keeps.trans {p q r : HelmChartInflationGeneratorPlugin} {s t u : Sys W}
    (h1 : Keeps p q s t) (h2 : Keeps q r t u) : Keeps p r s u := by
  obtain ⟨hc1, evs1, ht1, hk1⟩ := h1
  obtain ⟨hc2, evs2, ht2, hk2⟩ := h2
  refine ⟨hc2.trans hc1, evs1 ++ evs2, by rw [ht2, ht1, List.append_assoc], ?_⟩
  intro hp
  obtain ⟨hq, hn1⟩ := hk1 hp
  obtain ⟨hr, hn2⟩ := hk2 (by rw [hq]; exact hp)
  refine ⟨hr.trans hq, ?_⟩
  intro hmem
  rcases List.mem_append.1 hmem with h | h
  · exact hn1 h
  · exact hn2 h

/-- A step that leaves the plugin alone and adds the single call `ev`. -/
theorem Keeps.of_event (p : HelmChartInflationGeneratorPlugin) (s t : Sys W) (ev : Event)
    (ht : t.trace = s.trace ++ [ev]) (hev : ev ≠ Event.tempDir) : Keeps p p s t := by
  refine ⟨rfl, [ev], ht, fun _ => ⟨rfl, ?_⟩⟩
  intro hmem
  exact hev (List.mem_singleton.1 hmem).symm

theorem runHelmCommand_keeps (env : Env W R) (p : HelmChartInflationGeneratorPlugin)
    (s : Sys W) (args : List String) : Keeps p p s (runHelmCommand env p s args).2 :=
  Keeps.of_event p s _ _ (by rw [runHelmCommand_snd]) (fun h => Event.noConfusion h)

theorem checkHelmVersion_keeps (env : Env W R) (p : HelmChartInflationGeneratorPlugin)
    (s : Sys W) : Keeps p p s (checkHelmVersion env p s).2 := by
  rw [checkHelmVersion_snd]
  exact runHelmCommand_keeps env p s _

theorem chartExistsLocally_keeps (env : Env W R) (p : HelmChartInflationGeneratorPlugin)
    (s : Sys W) : Keeps p p s (chartExistsLocally env p s).2 :=
  Keeps.of_event p s _ _ (by rw [chartExistsLocally_snd]) (fun h => Event.noConfusion h)

theorem resolveChart_keeps (env : Env W R) (p : HelmChartInflationGeneratorPlugin)
    (s : Sys W) : Keeps p p s (Generate.resolveChart env p s).2 := by
  have h1 := chartExistsLocally_keeps env p s
  unfold Generate.resolveChart
  rcases hC : chartExistsLocally env p s with ⟨⟨path, isThere⟩, s1⟩
  rw [hC] at h1
  simp only at h1 ⊢
  cases isThere with
  | true => exact h1
  | false =>
    simp only [Bool.not_false, if_true]
    by_cases hr : p.Repo = ""
    · rw [if_pos hr]
      exact h1
    · rw [if_neg hr]
      have h2 := runHelmCommand_keeps env p s1 (pullCommand env p)
      rcases hH : runHelmCommand env p s1 (pullCommand env p) with ⟨⟨out, e⟩, s2⟩
      rw [hH] at h2
      cases e <;> exact h1.trans h2

theorem establishTmpDir_keeps (env : Env W R) (p : HelmChartInflationGeneratorPlugin)
    (s : Sys W) : Keeps p (establishTmpDir env p s).2.1 s (establishTmpDir env p s).2.2 := by
  unfold establishTmpDir
  by_cases ht : p.tmpDir = ""
  · rw [if_neg (by simpa using ht)]
    rcases env.tempDir s.world with ⟨r, w⟩
    cases r with
    | ok d => exact ⟨rfl, [Event.tempDir], rfl, fun h => absurd ht h⟩
    | error e => exact ⟨rfl, [Event.tempDir], rfl, fun h => absurd ht h⟩
  · rw [if_pos ht]
    exact Keeps.refl p s

theorem writeValuesBytes_keeps (env : Env W R) (p : HelmChartInflationGeneratorPlugin)
    (s : Sys W) (b : String) :
    Keeps p (writeValuesBytes env p s b).2.1 s (writeValuesBytes env p s b).2.2 := by
  have h1 := establishTmpDir_keeps env p s
  unfold writeValuesBytes
  rcases hT : establishTmpDir env p s with ⟨e, p1, s1⟩
  rw [hT] at h1
  simp only at h1
  cases e with
  | some e => exact h1
  | none =>
    refine h1.trans (Keeps.of_event p1 s1 _ _ rfl (fun h => Event.noConfusion h))

theorem replaceValuesInline_keeps (env : Env W R) (p : HelmChartInflationGeneratorPlugin)
    (s : Sys W) :
    Keeps p (replaceValuesInline env p s).2.1 s (replaceValuesInline env p s).2.2 := by
  have hev : Event.load p.ValuesFile ≠ Event.tempDir := fun h => Event.noConfusion h
  unfold replaceValuesInline
  cases env.load s.world p.ValuesFile with
  | error e => exact Keeps.of_event p s _ _ rfl hev
  | ok bytes =>
    simp only
    cases env.unmarshal bytes with
    | error e => exact Keeps.of_event p s _ _ rfl hev
    | ok base =>
      refine ⟨rfl, [Event.load p.ValuesFile], rfl, fun _ => ⟨rfl, ?_⟩⟩
      intro hmem
      exact hev (List.mem_singleton.1 hmem).symm

theorem createNewMergedValuesFile_keeps (env : Env W R)
    (p : HelmChartInflationGeneratorPlugin) (s : Sys W) :
    Keeps p (createNewMergedValuesFile env p s).2.1 s
      (createNewMergedValuesFile env p s).2.2 := by
  have key : ∀ (m : Option String × HelmChartInflationGeneratorPlugin × Sys W),
      Keeps p m.2.1 s m.2.2 →
      Keeps p
        (match m with
        | (some e, p1, s1) => (("", some e), p1, s1)
        | (none, p1, s1) =>
          match env.marshal p1.ValuesInline with
          | Except.error e => (("", some e), p1, s1)
          | Except.ok b => writeValuesBytes env p1 s1 b).2.1 s
        (match m with
        | (some e, p1, s1) => (("", some e), p1, s1)
        | (none, p1, s1) =>
          match env.marshal p1.ValuesInline with
          | Except.error e => (("", some e), p1, s1)
          | Except.ok b => writeValuesBytes env p1 s1 b).2.2 := by
    rintro ⟨e, p1, s1⟩ hk
    cases e with
    | some e => exact hk
    | none =>
      simp only
      cases env.marshal p1.ValuesInline with
      | error e => exact hk
      | ok b => exact hk.trans (writeValuesBytes_keeps env p1 s1 b)
  unfold createNewMergedValuesFile
  by_cases hm : p.ValuesMerge = valuesMergeOptionMerge ∨ p.ValuesMerge = valuesMergeOptionOverride
  · simp only [hm, if_true]
    exact key _ (replaceValuesInline_keeps env p s)
  · simp only [hm, if_false]
    exact key (none, p, s) (Keeps.refl p s)

theorem copyValuesFile_keeps (env : Env W R) (p : HelmChartInflationGeneratorPlugin)
    (s : Sys W) : Keeps p (copyValuesFile env p s).2.1 s (copyValuesFile env p s).2.2 := by
  have hev : Event.load p.ValuesFile ≠ Event.tempDir := fun h => Event.noConfusion h
  unfold copyValuesFile
  cases env.load s.world p.ValuesFile with
  | error e => exact Keeps.of_event p s _ _ rfl hev
  | ok b =>
    exact (Keeps.of_event p s ⟨s.world, s.trace ++ [Event.load p.ValuesFile]⟩ _ rfl hev).trans
      (writeValuesBytes_keeps env p _ b)

theorem resolveValues_keeps (env : Env W R) (p : HelmChartInflationGeneratorPlugin)
    (s : Sys W) :
    Keeps p (Generate.resolveValues env p s).2.1 s (Generate.resolveValues env p s).2.2 := by
  unfold Generate.resolveValues
  by_cases hl : p.ValuesInline.length > 0
  · simp only [hl, if_true]
    exact createNewMergedValuesFile_keeps env p s
  · simp only [hl, if_false]
    exact copyValuesFile_keeps env p s

theorem body_keeps (env : Env W R) (p : HelmChartInflationGeneratorPlugin) (s : Sys W) :
    Keeps p (Generate.body env p s).2.1 s (Generate.body env p s).2.2 := by
  have h1 := checkHelmVersion_keeps env p s
  unfold Generate.body
  rcases hV : checkHelmVersion env p s with ⟨e1, s1⟩
  rw [hV] at h1
  cases e1 with
  | some e => exact h1
  | none =>
    simp only
    have h2 := h1.trans (resolveChart_keeps env p s1)
    rcases hC : Generate.resolveChart env p s1 with ⟨e2, s2⟩
    rw [hC] at h2
    cases e2 with
    | some e => exact h2
    | none =>
      simp only
      have h3 := h2.trans (resolveValues_keeps env p s2)
      rcases hR : Generate.resolveValues env p s2 with ⟨e3, p3, s3⟩
      rw [hR] at h3
      cases e3 with
      | some e => exact h3
      | none =>
        simp only
        have h4 := h3.trans (runHelmCommand_keeps env p3 s3 (templateCommand env p3))
        rcases hT : runHelmCommand env p3 s3 (templateCommand env p3) with ⟨⟨out, e4⟩, s4⟩
        rw [hT] at h4
        cases e4 <;> exact h4

/-- One `Generate` call on a plugin whose `tmpDir` is set: `tmpDir` and `ConfigHome` stay
as they are, `ioutil.TempDir` is not called, and the last call is the `RemoveAll` of
`tmpDir`. -/
theorem Generate_keeps_tmpDir (env : Env W R) (p : HelmChartInflationGeneratorPlugin)
    (s : Sys W) (hTmp : p.tmpDir ≠ "") :
    (Generate env p s).2.1.tmpDir = p.tmpDir ∧
    (Generate env p s).2.1.ConfigHome = p.ConfigHome ∧
    ∃ evs, (Generate env p s).2.2.trace = s.trace ++ evs ++ [Event.removeAll p.tmpDir] ∧
      Event.tempDir ∉ evs := by
  obtain ⟨hc, evs, ht, hk⟩ := body_keeps env p s
  obtain ⟨hd, hn⟩ := hk hTmp
  unfold Generate
  rcases hB : Generate.body env p s with ⟨r, p1, s1⟩
  rw [hB] at hc ht hd
  simp only at hc ht hd ⊢
  refine ⟨hd, hc, evs, ?_, hn⟩
  unfold cleanup
  rw [if_pos (by rw [hd]; exact hTmp)]
  simp only [ht, hd]

/-- The trace of a `Generate` call that ends with `tmpDir` set ends with the `RemoveAll`
of that directory. -/
theorem Generate_ends_with_removeAll (env : Env W R) (p : HelmChartInflationGeneratorPlugin)
    (s : Sys W) (hTmp : (Generate env p s).2.1.tmpDir ≠ "") :
    ∃ evs, (Generate env p s).2.2.trace =
      s.trace ++ evs ++ [Event.removeAll (Generate env p s).2.1.tmpDir] := by
  obtain ⟨-, evs, ht, -⟩ := body_keeps env p s
  unfold Generate at hTmp ⊢
  rcases hB : Generate.body env p s with ⟨r, p1, s1⟩
  rw [hB] at ht hTmp
  simp only at ht hTmp ⊢
  refine ⟨evs, ?_⟩
  unfold cleanup
  rw [if_pos hTmp]
  simp only [ht]

/-- C8 on the code: with `Repo` empty, the version check passed and `os.Stat` failing on
the chart directory, `Generate` returns no resources, runs no helm command besides the
version check, and fails with "no repo specified for pull, no chart found at ''": the
path between the quotes is empty, not the chart directory, because
`chartExistsLocally` returns the empty string when `os.Stat` fails. -/
theorem Generate_no_repo (env : Env W R) (p : HelmChartInflationGeneratorPlugin) (s : Sys W)
    (hRepo : p.Repo = "") (hVer : (checkHelmVersion env p s).1 = none)
    (hStat : env.stat (checkHelmVersion env p s).2.world
      (env.join [absChartHome env p, p.Name]) = none) :
    (Generate env p s).1 =
      Except.error "no repo specified for pull, no chart found at ''" ∧
    (Generate env p s).2.2.trace =
      s.trace ++
        [Event.exec env.helmCommand ["version", "-c", "--short"] (env.environ ++ helmEnv p),
          Event.stat (env.join [absChartHome env p, p.Name])] ++
        (if p.tmpDir ≠ "" then [Event.removeAll p.tmpDir] else []) := by
  have hs := checkHelmVersion_snd env p s
  rw [runHelmCommand_snd] at hs
  rcases hV : checkHelmVersion env p s with ⟨e1, s1⟩
  rw [hV] at hVer hStat hs
  simp only at hVer hStat hs
  subst hVer
  have hC : Generate.resolveChart env p s1 =
      (some "no repo specified for pull, no chart found at ''",
        ⟨s1.world, s1.trace ++ [Event.stat (env.join [absChartHome env p, p.Name])]⟩) := by
    unfold Generate.resolveChart chartExistsLocally
    simp only [hStat, Bool.not_false, if_true, hRepo]
    rfl
  have hB : Generate.body env p s =
      (Except.error "no repo specified for pull, no chart found at ''", p,
        ⟨s1.world, s1.trace ++ [Event.stat (env.join [absChartHome env p, p.Name])]⟩) := by
    unfold Generate.body
    rw [hV]
    simp only [hC]
  unfold Generate
  rw [hB]
  refine ⟨rfl, ?_⟩
  unfold cleanup
  by_cases ht : p.tmpDir = ""
  · simp [ht, hs]
  · simp [ht, hs]

/-- The chart `other` is not below the chart home of the demo world, where the chart
directory would be "/app/charts/other": the error names the empty path. -/
theorem Generate_no_repo_witness :
    demoOther.1.Repo = "" ∧
    (checkHelmVersion demoEnv demoOther.1 demoOther.2).1 = none ∧
    demoEnv.join [absChartHome demoEnv demoOther.1, demoOther.1.Name] = "/app/charts/other" ∧
    demoEnv.stat (checkHelmVersion demoEnv demoOther.1 demoOther.2).2.world
      (demoEnv.join [absChartHome demoEnv demoOther.1, demoOther.1.Name]) = none ∧
    (Generate demoEnv demoOther.1 demoOther.2).1 =
      Except.error "no repo specified for pull, no chart found at ''" :=
  ⟨rfl, rfl, rfl, rfl, (Generate_no_repo demoEnv demoOther.1 demoOther.2 rfl rfl rfl).1⟩

theorem writeValuesBytes_path (env : Env W R) (p : HelmChartInflationGeneratorPlugin)
    (s : Sys W) (b : String) (h : (writeValuesBytes env p s b).1.2 = none) :
    (writeValuesBytes env p s b).1.1 =
      env.join [(writeValuesBytes env p s b).2.1.tmpDir, p.Name ++ "-kustomize-values.yaml"] := by
  obtain ⟨d, hd⟩ := establishTmpDir_fields env p s
  unfold writeValuesBytes at h ⊢
  rcases hT : establishTmpDir env p s with ⟨e, p1, s1⟩
  rw [hT] at hd h
  simp only at hd
  subst hd
  cases e with
  | some e => exact Option.noConfusion h
  | none => rfl

theorem replaceValuesInline_fields (env : Env W R) (p : HelmChartInflationGeneratorPlugin)
    (s : Sys W) :
    ∃ v, (replaceValuesInline env p s).2.1 = { p with ValuesInline := v } := by
  unfold replaceValuesInline
  cases env.load s.world p.ValuesFile with
  | error e => exact ⟨p.ValuesInline, rfl⟩
  | ok bytes =>
    simp only
    cases env.unmarshal bytes with
    | error e => exact ⟨p.ValuesInline, rfl⟩
    | ok base => exact ⟨_, rfl⟩

theorem createNewMergedValuesFile_path (env : Env W R)
    (p : HelmChartInflationGeneratorPlugin) (s : Sys W)
    (h : (createNewMergedValuesFile env p s).1.2 = none) :
    (createNewMergedValuesFile env p s).1.1 =
      env.join [(createNewMergedValuesFile env p s).2.1.tmpDir,
        p.Name ++ "-kustomize-values.yaml"] := by
  have key : ∀ (m : Option String × HelmChartInflationGeneratorPlugin × Sys W),
      m.2.1.Name = p.Name →
      (match m with
        | (some e, p1, s1) => (("", some e), p1, s1)
        | (none, p1, s1) =>
          match env.marshal p1.ValuesInline with
          | Except.error e => (("", some e), p1, s1)
          | Except.ok b => writeValuesBytes env p1 s1 b).1.2 = none →
      (match m with
        | (some e, p1, s1) => (("", some e), p1, s1)
        | (none, p1, s1) =>
          match env.marshal p1.ValuesInline with
          | Except.error e => (("", some e), p1, s1)
          | Except.ok b => writeValuesBytes env p1 s1 b).1.1 =
        env.join [(match m with
          | (some e, p1, s1) => (("", some e), p1, s1)
          | (none, p1, s1) =>
            match env.marshal p1.ValuesInline with
            | Except.error e => (("", some e), p1, s1)
            | Except.ok b => writeValuesBytes env p1 s1 b).2.1.tmpDir,
          p.Name ++ "-kustomize-values.yaml"] := by
    rintro ⟨e, p1, s1⟩ hn hk
    simp only at hn
    cases e with
    | some e => exact Option.noConfusion hk
    | none =>
      simp only at hk ⊢
      cases hm : env.marshal p1.ValuesInline with
      | error e =>
        rw [hm] at hk
        exact Option.noConfusion hk
      | ok b =>
        rw [hm] at hk
        simp only at hk ⊢
        rw [← hn]
        exact writeValuesBytes_path env p1 s1 b hk
  unfold createNewMergedValuesFile at h ⊢
  by_cases hm : p.ValuesMerge = valuesMergeOptionMerge ∨ p.ValuesMerge = valuesMergeOptionOverride
  · simp only [hm, if_true] at h ⊢
    obtain ⟨v, hv⟩ := replaceValuesInline_fields env p s
    exact key _ (by rw [hv]) h
  · simp only [hm, if_false] at h ⊢
    exact key (none, p, s) rfl h

theorem copyValuesFile_path (env : Env W R) (p : HelmChartInflationGeneratorPlugin)
    (s : Sys W) (h : (copyValuesFile env p s).1.2 = none) :
    (copyValuesFile env p s).1.1 =
      env.join [(copyValuesFile env p s).2.1.tmpDir, p.Name ++ "-kustomize-values.yaml"] := by
  unfold copyValuesFile at h ⊢
  cases hl : env.load s.world p.ValuesFile with
  | error e =>
    rw [hl] at h
    exact Option.noConfusion h
  | ok b =>
    rw [hl] at h
    exact writeValuesBytes_path env p _ b h

/-- When the values-resolution step succeeds, `ValuesFile` names the file
`<Name>-kustomize-values.yaml` in the temporary directory. -/
theorem resolveValues_path (env : Env W R) (p : HelmChartInflationGeneratorPlugin)
    (s : Sys W) (h : (Generate.resolveValues env p s).1 = none) :
    (Generate.resolveValues env p s).2.1.ValuesFile =
      env.join [(Generate.resolveValues env p s).2.1.tmpDir,
        p.Name ++ "-kustomize-values.yaml"] := by
  unfold Generate.resolveValues at h ⊢
  by_cases hl : p.ValuesInline.length > 0
  · simp only [hl, if_true] at h ⊢
    exact createNewMergedValuesFile_path env p s h
  · simp only [hl, if_false] at h ⊢
    exact copyValuesFile_path env p s h

theorem body_path (env : Env W R) (p : HelmChartInflationGeneratorPlugin) (s : Sys W)
    (rm : R) (h : (Generate.body env p s).1 = Except.ok rm) :
    (Generate.body env p s).2.1.ValuesFile =
      env.join [(Generate.body env p s).2.1.tmpDir, p.Name ++ "-kustomize-values.yaml"] := by
  unfold Generate.body at h ⊢
  rcases hV : checkHelmVersion env p s with ⟨e1, s1⟩
  rw [hV] at h
  cases e1 with
  | some e => exact Except.noConfusion h
  | none =>
    simp only at h ⊢
    rcases hC : Generate.resolveChart env p s1 with ⟨e2, s2⟩
    rw [hC] at h
    cases e2 with
    | some e => exact Except.noConfusion h
    | none =>
      simp only at h ⊢
      have hp := resolveValues_path env p s2
      rcases hR : Generate.resolveValues env p s2 with ⟨e3, p3, s3⟩
      rw [hR] at h hp
      cases e3 with
      | some e => exact Except.noConfusion h
      | none =>
        simp only at h hp ⊢
        rcases hT : runHelmCommand env p3 s3 (templateCommand env p3) with ⟨⟨out, e4⟩, s4⟩
        rw [hT] at h
        cases e4 with
        | some e => exact Except.noConfusion h
        | none => exact hp trivial

/-- After a successful `Generate` call, `ValuesFile` names the values file in the
temporary directory. -/
theorem Generate_path (env : Env W R) (p : HelmChartInflationGeneratorPlugin) (s : Sys W)
    (rm : R) (h : (Generate env p s).1 = Except.ok rm) :
    (Generate env p s).2.1.ValuesFile =
      env.join [(Generate env p s).2.1.tmpDir, p.Name ++ "-kustomize-values.yaml"] := by
  have hb := body_path env p s rm
  unfold Generate at h ⊢
  rcases hB : Generate.body env p s with ⟨r, p1, s1⟩
  rw [hB] at h hb
  exact hb h

/-- C10, two calls in the demo world.  Without inline values the first `Generate` call
succeeds and leaves `ValuesFile` pointing at the values file in its temporary directory,
which it has removed; the second call on the same plugin creates no temporary directory
and fails when it loads that file, while a freshly validated plugin succeeds in the
world that the first call left.  With inline values and the policy "replace" the first
call succeeds and the second fails when it writes into the removed directory. -/
theorem Generate_twice_fails :
    (demoFirst [] "").1 = Except.ok ["ConfigMap"] ∧
    (demoFirst [] "").2.1.tmpDir = "/tmp/kustomize-helm-1" ∧
    (demoFirst [] "").2.1.ValuesFile = "/tmp/kustomize-helm-1/demo-kustomize-values.yaml" ∧
    (demoFirst [] "").2.2.world.dirs = ["/app", "/app/charts", "/app/charts/demo", "/tmp"] ∧
    (demoSecond [] "").1 = Except.error
      "open /tmp/kustomize-helm-1/demo-kustomize-values.yaml: no such file or directory" ∧
    (demoSecond [] "").2.2.world.fresh = ["/tmp/kustomize-helm-2"] ∧
    (Generate demoEnv (validateArgs demoEnv demoPlugin ⟨(demoFirst [] "").2.2.world, []⟩).2.1
      (validateArgs demoEnv demoPlugin ⟨(demoFirst [] "").2.2.world, []⟩).2.2).1 =
      Except.ok ["ConfigMap"] ∧
    (demoFirst [("x", Value.str "inline")] "replace").1 = Except.ok ["ConfigMap"] ∧
    (demoSecond [("x", Value.str "inline")] "replace").1 = Except.error
      "open /tmp/kustomize-helm-1/demo-kustomize-values.yaml: no such file or directory" ∧
    (demoSecond [("x", Value.str "inline")] "replace").2.2.world.fresh =
      ["/tmp/kustomize-helm-2"] :=
  ⟨rfl, rfl, rfl, rfl, rfl, rfl, rfl, rfl, rfl, rfl⟩

/-- C10, amended: when a first `Generate` call ends with `tmpDir` set, its last call is the
`RemoveAll` of that directory, and if it succeeded then `ValuesFile` names the values
file inside that directory; a second `Generate` call on the same plugin keeps that
`tmpDir` and `ConfigHome`, never calls `ioutil.TempDir`, and ends with the `RemoveAll`
of the same directory again. -/
theorem Generate_second_call (env : Env W R) (p : HelmChartInflationGeneratorPlugin)
    (s : Sys W) (hTmp : (Generate env p s).2.1.tmpDir ≠ "") :
    (∃ evs, (Generate env p s).2.2.trace =
      s.trace ++ evs ++ [Event.removeAll (Generate env p s).2.1.tmpDir]) ∧
    (∀ rm, (Generate env p s).1 = Except.ok rm →
      (Generate env p s).2.1.ValuesFile =
        env.join [(Generate env p s).2.1.tmpDir, p.Name ++ "-kustomize-values.yaml"]) ∧
    (Generate env (Generate env p s).2.1 (Generate env p s).2.2).2.1.tmpDir =
      (Generate env p s).2.1.tmpDir ∧
    (Generate env (Generate env p s).2.1 (Generate env p s).2.2).2.1.ConfigHome =
      (Generate env p s).2.1.ConfigHome ∧
    ∃ evs, (Generate env (Generate env p s).2.1 (Generate env p s).2.2).2.2.trace =
        (Generate env p s).2.2.trace ++ evs ++
          [Event.removeAll (Generate env p s).2.1.tmpDir] ∧
      Event.tempDir ∉ evs :=
  ⟨Generate_ends_with_removeAll env p s hTmp, Generate_path env p s,
    Generate_keeps_tmpDir env (Generate env p s).2.1 (Generate env p s).2.2 hTmp⟩

/-- The two calls in the demo world: the second call keeps the `tmpDir` of the first. -/
theorem Generate_second_call_witness :
    (Generate demoEnv (demoValidated [] "").1 (demoValidated [] "").2).2.1.tmpDir ≠ "" ∧
    (Generate demoEnv (Generate demoEnv (demoValidated [] "").1 (demoValidated [] "").2).2.1
      (Generate demoEnv (demoValidated [] "").1 (demoValidated [] "").2).2.2).2.1.tmpDir =
      (Generate demoEnv (demoValidated [] "").1 (demoValidated [] "").2).2.1.tmpDir :=
  ⟨by decide,
    (Generate_second_call demoEnv (demoValidated [] "").1 (demoValidated [] "").2
      (by decide)).2.2.1⟩

end GenerateTheorems

/-! ## The helm version check: theorems -/

section VersionTheorems

variable {W R : Type}

theorem digit_mem (x : List Char) (h : x ∈ digitRE.matches') :
    ∃ c, x = [c] ∧ c ≠ '.' ∧ c ≠ 'v' := by
  simp only [digitRE, RegularExpression.matches'_add, RegularExpression.matches'_char,
    Language.mem_add, Set.mem_singleton_iff] at h
  rcases h with (((((((((h | h) | h) | h) | h) | h) | h) | h) | h) | h) <;>
    exact ⟨_, h, by decide, by decide⟩

theorem digits_mem (x : List Char) (h : x ∈ digitsRE.matches') :
    x ≠ [] ∧ ∀ c ∈ x, c ≠ '.' ∧ c ≠ 'v' := by
  simp only [digitsRE, RegularExpression.matches'_mul, RegularExpression.matches'_star] at h
  obtain ⟨a, ha, b, hb, rfl⟩ := Language.mem_mul.1 h
  obtain ⟨c, rfl, hc⟩ := digit_mem a ha
  refine ⟨by simp, ?_⟩
  obtain ⟨L, rfl, hL⟩ := Language.mem_kstar.1 hb
  intro c1 hc1
  rcases List.mem_append.1 hc1 with h1 | h1
  · rw [List.mem_singleton.1 h1]
    exact hc
  · obtain ⟨y, hy, hcy⟩ := List.mem_flatten.1 h1
    obtain ⟨c2, rfl, hc2⟩ := digit_mem y (hL y hy)
    rw [List.mem_singleton.1 hcy]
    exact hc2

/-- The shape of a match: digits, a dot and more, with or without a `v` in front. -/
theorem version_mem (m : List Char) (h : m ∈ versionRE.matches') :
    ∃ d rest, d ≠ [] ∧ (∀ c ∈ d, c ≠ '.' ∧ c ≠ 'v') ∧
      (m = d ++ '.' :: rest ∨ m = 'v' :: (d ++ '.' :: rest)) := by
  simp only [versionRE, groupRE, RegularExpression.matches'_mul,
    RegularExpression.matches'_add, RegularExpression.matches'_char,
    RegularExpression.matches'_epsilon] at h
  obtain ⟨ab, hab, g, hg, rfl⟩ := Language.mem_mul.1 h
  obtain ⟨a, ha, b, hb, rfl⟩ := Language.mem_mul.1 hab
  obtain ⟨g1, hg1, g2, -, rfl⟩ := Language.mem_mul.1 hg
  obtain ⟨dot, hdot, ds, -, rfl⟩ := Language.mem_mul.1 hg1
  obtain ⟨hne, hd⟩ := digits_mem b hb
  have hdot1 : dot = ['.'] := hdot
  subst hdot1
  refine ⟨b, ds ++ g2, hne, hd, ?_⟩
  rcases (Language.mem_add _ _ _).1 ha with hv | he
  · right
    have hv1 : a = ['v'] := hv
    subst hv1
    simp
  · left
    have he1 : a = [] := (Language.mem_one _).1 he
    subst he1
    simp

theorem version_ne_nil (m : List Char) (h : m ∈ versionRE.matches') : m ≠ [] := by
  obtain ⟨d, rest, hne, -, hm | hm⟩ := version_mem m h
  · rw [hm]
    simp
  · rw [hm]
    simp

theorem takeWhile_before_dot (d rest : List Char) (hd : ∀ c ∈ d, c ≠ '.' ∧ c ≠ 'v') :
    componentBeforeDot (d ++ '.' :: rest) = d := by
  unfold componentBeforeDot
  induction d with
  | nil => simp
  | cons c t ih =>
    have hc := (hd c (List.mem_cons_self c t)).1
    simp only [List.cons_append]
    rw [List.takeWhile_cons_of_pos (by simpa using hc)]
    rw [ih (fun c1 h1 => hd c1 (List.mem_cons_of_mem c h1))]

/-- The component before the first dot, after the `v` is stripped, is the same for a
match and for any text that starts with the match. -/
theorem major_of_match (m post : List Char) (h : m ∈ versionRE.matches') :
    componentBeforeDot (stripLeadingV (m ++ post)) = componentBeforeDot (stripLeadingV m) := by
  obtain ⟨d, rest, hne, hd, hm | hm⟩ := version_mem m h
  · subst hm
    obtain ⟨c, t, rfl⟩ := List.exists_cons_of_ne_nil hne
    have hcv : c ≠ 'v' := (hd c (List.mem_cons_self c t)).2
    have h1 : stripLeadingV (c :: t ++ '.' :: rest) = c :: t ++ '.' :: rest := by
      simp [stripLeadingV, hcv]
    have h2 : stripLeadingV ((c :: t ++ '.' :: rest) ++ post) =
        c :: t ++ '.' :: (rest ++ post) := by
      simp [stripLeadingV, hcv]
    rw [h1, h2, takeWhile_before_dot _ _ hd, takeWhile_before_dot _ _ hd]
  · subst hm
    have h1 : stripLeadingV ('v' :: (d ++ '.' :: rest)) = d ++ '.' :: rest := by
      simp [stripLeadingV]
    have h2 : stripLeadingV ('v' :: (d ++ '.' :: rest) ++ post) = d ++ '.' :: (rest ++ post) := by
      simp [stripLeadingV]
    rw [h1, h2, takeWhile_before_dot _ _ hd, takeWhile_before_dot _ _ hd]

/-- Two leftmost matches in the same text have the same major component. -/
theorem leftmost_major_unique (s pre1 m1 post1 pre2 m2 post2 : List Char)
    (h1 : IsLeftmostMatch s pre1 m1 post1) (h2 : IsLeftmostMatch s pre2 m2 post2) :
    pre1 = pre2 ∧
    componentBeforeDot (stripLeadingV m1) = componentBeforeDot (stripLeadingV m2) := by
  obtain ⟨hs1, hm1, hl1⟩ := h1
  obtain ⟨hs2, hm2, hl2⟩ := h2
  have hlen : pre1.length = pre2.length :=
    Nat.le_antisymm (hl1 pre2 m2 post2 hs2 hm2) (hl2 pre1 m1 post1 hs1 hm1)
  have heq : pre1 ++ (m1 ++ post1) = pre2 ++ (m2 ++ post2) := by
    rw [← List.append_assoc, ← List.append_assoc, ← hs1, ← hs2]
  obtain ⟨hpre, hrest⟩ := List.append_inj heq hlen
  refine ⟨hpre, ?_⟩
  rw [← major_of_match m1 post1 hm1, ← major_of_match m2 post2 hm2, hrest]

theorem matchAt_some (s m : List Char) (h : matchAt s = some m) :
    (∃ post, s = m ++ post) ∧ m ∈ versionRE.matches' := by
  unfold matchAt at h
  have hmem := List.mem_of_find?_eq_some h
  have hp := List.find?_some h
  rw [List.mem_reverse, List.mem_inits] at hmem
  obtain ⟨post, hpost⟩ := hmem
  exact ⟨⟨post, hpost.symm⟩, (RegularExpression.rmatch_iff_matches' _ _).1 hp⟩

theorem matchAt_none (s : List Char) (h : matchAt s = none) (m post : List Char)
    (hs : s = m ++ post) : m ∉ versionRE.matches' := by
  unfold matchAt at h
  rw [List.find?_eq_none] at h
  intro hm
  have hin : m ∈ s.inits.reverse := by
    rw [List.mem_reverse, List.mem_inits]
    exact ⟨post, hs.symm⟩
  exact h m hin ((RegularExpression.rmatch_iff_matches' _ _).2 hm)

theorem findMatch_some (s m : List Char) (h : findMatch s = some m) :
    ∃ pre post, IsLeftmostMatch s pre m post := by
  induction s with
  | nil => simp [findMatch] at h
  | cons c t ih =>
    unfold findMatch at h
    cases hA : matchAt (c :: t) with
    | some m0 =>
      rw [hA] at h
      simp only [Option.some.injEq] at h
      subst h
      obtain ⟨⟨post, hpost⟩, hm⟩ := matchAt_some _ _ hA
      exact ⟨[], post, by simpa using hpost, hm, fun _ _ _ _ _ => Nat.zero_le _⟩
    | none =>
      rw [hA] at h
      simp only at h
      obtain ⟨pre, post, hs, hm, hl⟩ := ih h
      refine ⟨c :: pre, post, by simp [hs], hm, ?_⟩
      intro pre1 m1 post1 hs1 hm1
      cases pre1 with
      | nil =>
        exact absurd hm1 (matchAt_none _ hA m1 post1 (by simpa using hs1))
      | cons a q =>
        simp only [List.cons_append, List.cons.injEq] at hs1
        have := hl q m1 post1 hs1.2 hm1
        simp only [List.length_cons]
        omega

theorem findMatch_none (s : List Char) (h : findMatch s = none) (pre m post : List Char)
    (hs : s = pre ++ m ++ post) : m ∉ versionRE.matches' := by
  induction s generalizing pre with
  | nil =>
    intro hm
    have h1 := congrArg List.length hs
    simp only [List.length_nil, List.length_append] at h1
    have h2 : m.length = 0 := by omega
    exact version_ne_nil m hm (List.length_eq_zero.1 h2)
  | cons c t ih =>
    unfold findMatch at h
    cases hA : matchAt (c :: t) with
    | some m0 =>
      rw [hA] at h
      exact Option.noConfusion h
    | none =>
      rw [hA] at h
      simp only at h
      cases pre with
      | nil => exact matchAt_none _ hA m post (by simpa using hs)
      | cons a q =>
        simp only [List.cons_append, List.cons.injEq] at hs
        exact ih h q hs.2

theorem splitChar_head (sep : Char) (l : List Char) :
    (splitChar sep l).headD [] = l.takeWhile (fun c => c ≠ sep) := by
  induction l with
  | nil => simp [splitChar]
  | cons c t ih =>
    unfold splitChar
    by_cases hc : c = sep
    · simp [hc]
    · rw [if_neg hc, List.takeWhile_cons_of_pos (by simpa using hc), ← ih]
      cases hsp : splitChar sep t with
      | nil => simp
      | cons h r => simp

theorem onStdout_none (stdout : String) (h : findMatch stdout.data = none) :
    checkHelmVersion.onStdout stdout = some ("cannot find version string in " ++ stdout) := by
  unfold checkHelmVersion.onStdout FindString
  rw [h]
  simp

theorem mk_eq_iff (x y : List Char) : String.mk x = String.mk y ↔ x = y :=
  ⟨fun h => congrArg String.data h, fun h => congrArg String.mk h⟩

theorem onStdout_some (stdout : String) (m : List Char) (h : findMatch stdout.data = some m)
    (hne : m ≠ []) :
    checkHelmVersion.onStdout stdout =
      if componentBeforeDot (stripLeadingV m) = ['3'] then none
      else some ("this plugin requires helm V3 but got v" ++ String.mk (stripLeadingV m)) := by
  have h0 : ¬ String.mk m = "" := fun h1 => hne ((mk_eq_iff m []).1 h1)
  have h1 : (if (String.mk m).data.head? = some 'v' then String.mk (String.mk m).data.tail
      else String.mk m) = String.mk (stripLeadingV m) := by
    unfold stripLeadingV
    by_cases hv : m.head? = some 'v'
    · simp only [hv, if_true]
    · simp only [hv, if_false]
  have h2 : majorOf (String.mk (stripLeadingV m)) =
      String.mk (componentBeforeDot (stripLeadingV m)) := by
    unfold majorOf componentBeforeDot
    rw [splitChar_head]
  have h3 : (String.mk (componentBeforeDot (stripLeadingV m)) = "3") ↔
      componentBeforeDot (stripLeadingV m) = ['3'] := mk_eq_iff _ ['3']
  unfold checkHelmVersion.onStdout FindString
  rw [h]
  simp only [h0, if_false, h1, h2]
  by_cases hc : componentBeforeDot (stripLeadingV m) = ['3']
  · simp only [hc, if_true]
    rfl
  · rw [if_neg hc, if_pos]
    exact fun h4 => hc (h3.1 h4)

/-- The version check on the output of a successful helm run, in the words of the
specification. -/
theorem onStdout_spec (stdout : String) :
    (checkHelmVersion.onStdout stdout = none ↔
      ∃ pre m post, IsLeftmostMatch stdout.data pre m post ∧
        componentBeforeDot (stripLeadingV m) = ['3']) ∧
    ((∀ pre m post, stdout.data = pre ++ m ++ post → m ∉ versionRE.matches') →
      checkHelmVersion.onStdout stdout = some ("cannot find version string in " ++ stdout)) ∧
    (∀ pre m post, IsLeftmostMatch stdout.data pre m post →
      componentBeforeDot (stripLeadingV m) ≠ ['3'] →
      ∃ m1 post1, stdout.data = pre ++ m1 ++ post1 ∧ m1 ∈ versionRE.matches' ∧
        checkHelmVersion.onStdout stdout =
          some ("this plugin requires helm V3 but got v" ++ String.mk (stripLeadingV m1))) := by
  cases hF : findMatch stdout.data with
  | none =>
    have hno := findMatch_none stdout.data hF
    have herr := onStdout_none stdout hF
    refine ⟨?_, fun _ => herr, ?_⟩
    · rw [herr]
      constructor
      · intro h
        exact Option.noConfusion h
      · rintro ⟨pre, m, post, ⟨hs, hm, -⟩, -⟩
        exact absurd hm (hno pre m post hs)
    · rintro pre m post ⟨hs, hm, -⟩ -
      exact absurd hm (hno pre m post hs)
  | some m0 =>
    obtain ⟨pre0, post0, h0⟩ := findMatch_some stdout.data m0 hF
    have hne := version_ne_nil m0 h0.2.1
    have hval := onStdout_some stdout m0 hF hne
    refine ⟨?_, ?_, ?_⟩
    · rw [hval]
      constructor
      · intro h
        by_cases hc : componentBeforeDot (stripLeadingV m0) = ['3']
        · exact ⟨pre0, m0, post0, h0, hc⟩
        · rw [if_neg hc] at h
          exact Option.noConfusion h
      · rintro ⟨pre, m, post, hl, hc⟩
        rw [(leftmost_major_unique _ _ _ _ _ _ _ h0 hl).2, if_pos hc]
    · intro hno
      exact absurd h0.2.1 (hno pre0 m0 post0 h0.1)
    · intro pre m post hl hc
      obtain ⟨hpre, hmaj⟩ := leftmost_major_unique _ _ _ _ _ _ _ h0 hl
      refine ⟨m0, post0, by rw [← hpre]; exact h0.1, h0.2.1, ?_⟩
      rw [hval, if_neg]
      rw [hmaj]
      exact hc

/-- C7: when the run of `version -c --short` succeeds with output `stdout`,
`checkHelmVersion` succeeds exactly when `stdout` holds a match of `v?\d+(\.\d+)+` and
the leftmost match, without one leading `v`, has "3" before its first dot; when `stdout`
holds no match it fails with "cannot find version string in" followed by `stdout`; when
the leftmost match has another major component it fails with
"this plugin requires helm V3 but got v" followed by the match without its leading `v`. -/
theorem checkHelmVersion_spec (env : Env W R) (p : HelmChartInflationGeneratorPlugin)
    (s s1 : Sys W) (stdout : String)
    (hRun : runHelmCommand env p s ["version", "-c", "--short"] = ((stdout, none), s1)) :
    ((checkHelmVersion env p s).1 = none ↔
      ∃ pre m post, IsLeftmostMatch stdout.data pre m post ∧
        componentBeforeDot (stripLeadingV m) = ['3']) ∧
    ((∀ pre m post, stdout.data = pre ++ m ++ post → m ∉ versionRE.matches') →
      (checkHelmVersion env p s).1 = some ("cannot find version string in " ++ stdout)) ∧
    (∀ pre m post, IsLeftmostMatch stdout.data pre m post →
      componentBeforeDot (stripLeadingV m) ≠ ['3'] →
      ∃ m1 post1, stdout.data = pre ++ m1 ++ post1 ∧ m1 ∈ versionRE.matches' ∧
        (checkHelmVersion env p s).1 =
          some ("this plugin requires helm V3 but got v" ++ String.mk (stripLeadingV m1))) := by
  have h : (checkHelmVersion env p s).1 = checkHelmVersion.onStdout stdout := by
    unfold checkHelmVersion
    rw [hRun]
  rw [h]
  exact onStdout_spec stdout

/-- A helm binary that prints "Client: v2.16.1+gbbdfe5e": the leftmost match is "v2.16.1",
its major component is "2", and the check fails asking for helm V3. -/
theorem checkHelmVersion_spec_witness :
    runHelmCommand helm2Env demoOther.1 demoOther.2 ["version", "-c", "--short"] =
      (("Client: v2.16.1+gbbdfe5e", none),
        (runHelmCommand helm2Env demoOther.1 demoOther.2 ["version", "-c", "--short"]).2) ∧
    (checkHelmVersion helm2Env demoOther.1 demoOther.2).1 =
      some "this plugin requires helm V3 but got v2.16.1" ∧
    ¬ ∃ pre m post, IsLeftmostMatch "Client: v2.16.1+gbbdfe5e".data pre m post ∧
        componentBeforeDot (stripLeadingV m) = ['3'] :=
  ⟨rfl, rfl,
    fun hex => Option.noConfusion
      (((checkHelmVersion_spec helm2Env demoOther.1 demoOther.2
        (runHelmCommand helm2Env demoOther.1 demoOther.2 ["version", "-c", "--short"]).2
        "Client: v2.16.1+gbbdfe5e" rfl).1.2 hex).symm.trans
        (rfl : (checkHelmVersion helm2Env demoOther.1 demoOther.2).1 =
          some "this plugin requires helm V3 but got v2.16.1"))⟩

end VersionTheorems

end HelmChartInflationGenerator
